import Mathlib

/-!
Verification of the Entity Connection Graph subsystem of the busfactor_ai
repository (files `backend/scripts/build_connections.py` and
`backend/scripts/mcp_api.py`), as a shallow embedding in Lean 4.

Modelling conventions:
* Python strings are Lean `String`s; slicing `s[:n]` is `pyTake n s`.
* Python floats are modelled as exact rationals `ℚ`.  Because the `Rat`
  arithmetic operations in Batteries are `@[irreducible]`, the one arithmetic
  expression the code computes (`max(0, 1 - distance/2)`) is implemented by a
  kernel-reducible function `distToConfidence` over `mkRat`, with a bridge
  lemma proving it equal to `max 0 (1 - d / 2)`.  Fixed float constants
  (0.95, 0.90, 0.85, 1.2, 0.5) become the exact rationals `mkRat 19 20`, …
* Python dicts (which iterate in insertion order) are association lists;
  Python sets are duplicate-free lists in insertion order (claims settled
  here never depend on set iteration order).
* The ChromaDB vector index and the sentence-transformer embedding are
  external collaborators; following the spec they are abstracted as an
  oracle parameter `vquery : String → List (String × ℚ)` mapping a document
  text to the ranked (id, distance) results of `collection.query` on its
  embedding, and the weekly-summary search is abstracted likewise.
* The SQLite tables are association lists keyed by `entity_id` resp.
  `(source_entity_id, target_entity_id)`; `INSERT OR REPLACE` is a keyed
  upsert, mirroring the UNIQUE constraints of `init_sqlite_db`.
-/

set_option maxRecDepth 4000

namespace Busfactor

/-! ### String and character utilities -/

/-- Character class `\d` of the CPython regexes, restricted to ASCII as in the
repository's data. -/
def isDigitCh (c : Char) : Bool := 48 ≤ c.toNat && c.toNat ≤ 57

/-- Character class `[A-Z]` (without `re.IGNORECASE`). -/
def isUpperCh (c : Char) : Bool := 65 ≤ c.toNat && c.toNat ≤ 90

/-- Character class `[a-z]`. -/
def isLowerCh (c : Char) : Bool := 97 ≤ c.toNat && c.toNat ≤ 122

/-- Character class `\s` of CPython: space, tab, newline, carriage return,
form feed, vertical tab. -/
def isSpaceCh (c : Char) : Bool :=
  c.toNat == 32 || c.toNat == 9 || c.toNat == 10 || c.toNat == 13 ||
  c.toNat == 12 || c.toNat == 11

/-- Case-insensitive match of input character `c` against a LOWERCASE ASCII
letter `p`, modelling `re.IGNORECASE` on the pattern's literal letters. -/
def matchCI (c p : Char) : Bool := c.toNat == p.toNat || c.toNat + 32 == p.toNat

/-- Lexicographic `≤` on char lists by code point, as Python compares
strings. -/
def lexLe : List Char → List Char → Bool
  | [], _ => true
  | _ :: _, [] => false
  | a :: as, b :: bs =>
    if a.toNat < b.toNat then true
    else if b.toNat < a.toNat then false
    else lexLe as bs

/-- Python string `<=`, used through `sorted`. -/
def strLe (a b : String) : Bool := lexLe a.data b.data

/-- `tuple(sorted([a, b]))` from the source: the unordered pair `{a, b}`
represented with its lexicographically smaller component first. -/
def sortedPair (a b : String) : String × String :=
  if strLe a b then (a, b) else (b, a)

/-- Python `s.startswith(p)`. -/
def startsWithPy (s p : String) : Bool := p.data.isPrefixOf s.data

/-- Python string slicing `s[:n]`. -/
def pyTake (n : Nat) (s : String) : String := ⟨s.data.take n⟩

/-- Python `match_reason.split(":")[0]`: the part of the string before the
first colon (the whole string when there is no colon). -/
def strColonHead (s : String) : String := ⟨s.data.takeWhile (fun c => c ≠ ':')⟩

/-- Python `str.zfill(n)` on a plain digit string: left-pad with `'0'` to
length `n`. -/
def zfill (n : Nat) (s : String) : String :=
  if n ≤ s.data.length then s else ⟨List.replicate (n - s.data.length) '0' ++ s.data⟩

/-! ### Exact-rational model of the float arithmetic -/

/-- `1 - d/2` on exact rationals, computed on numerator/denominator so that
the kernel can evaluate it (the `Rat` field operations are irreducible). -/
def oneMinusHalf (d : ℚ) : ℚ := mkRat (2 * (d.den : Int) - d.num) (2 * d.den)

/-- `confidence = max(0, 1 - (distance / 2))` from `find_vector_matches`. -/
def distToConfidence (d : ℚ) : ℚ := max 0 (oneMinusHalf d)

theorem oneMinusHalf_eq (d : ℚ) : oneMinusHalf d = 1 - d / 2 := by
  have hden : ((d.den : ℚ)) ≠ 0 := by exact_mod_cast d.den_nz
  have h := Rat.num_div_den d
  have h2 : (d.num : ℚ) = d * d.den := by field_simp
  rw [oneMinusHalf, Rat.mkRat_eq_div]
  push_cast
  rw [div_eq_iff (mul_ne_zero two_ne_zero hden), h2]
  ring

theorem distToConfidence_eq (d : ℚ) : distToConfidence d = max 0 (1 - d / 2) := by
  rw [distToConfidence, oneMinusHalf_eq]

/-- `VECTOR_SIMILARITY_THRESHOLD = 1.2` (exact rational model of the float). -/
def VECTOR_SIMILARITY_THRESHOLD : ℚ := mkRat 6 5

/-- `MIN_CONFIDENCE_SCORE = 0.5`. -/
def MIN_CONFIDENCE_SCORE : ℚ := mkRat 1 2

theorem VECTOR_SIMILARITY_THRESHOLD_eq : VECTOR_SIMILARITY_THRESHOLD = 6 / 5 := by
  rw [VECTOR_SIMILARITY_THRESHOLD, Rat.mkRat_eq_div]; norm_num

theorem MIN_CONFIDENCE_SCORE_eq : MIN_CONFIDENCE_SCORE = 1 / 2 := by
  rw [MIN_CONFIDENCE_SCORE, Rat.mkRat_eq_div]; norm_num

/-- Integer `m` rendered as the 3-fractional-digit decimal used by
`f"{distance:.3f}"`; rounding is floor(x·1000 + 1/2), a rational stand-in
for CPython's float formatting (the string is advisory `match_reason` text
only, never used in logic). -/
def fmt3 (q : ℚ) : String :=
  let m : Int := Int.fdiv (q.num * 2000 + (q.den : Int)) (2 * (q.den : Int))
  let n := m.natAbs
  (if m < 0 then "-" else "") ++ toString (n / 1000) ++ "." ++ zfill 3 (toString (n % 1000))

/-! ### Reference extraction (`extract_references`)

Each of the four regexes of `extract_references` is embedded as a
position-matcher returning the captured text and the unconsumed suffix, plus
a left-to-right non-overlapping scanner mirroring `re.finditer`.  The
matchers resolve the (very limited) backtracking of the original patterns
exactly; see the comments on each one. -/

/-- Greedily take up to `n` leading digits. -/
def takeDigits : Nat → List Char → List Char × List Char
  | 0, cs => ([], cs)
  | _ + 1, [] => ([], [])
  | n + 1, c :: cs =>
    if isDigitCh c then
      let (ds, rest) := takeDigits n cs
      (c :: ds, rest)
    else ([], c :: cs)

/-- Length of the maximal run of `[A-Z]` characters at the front. -/
def upperRunLen : List Char → Nat
  | [] => 0
  | c :: cs => if isUpperCh c then upperRunLen cs + 1 else 0

/-- Match `INC[-]?(\d{3,4})` (with `re.IGNORECASE`) at the head of the
input; returns the captured digit group and the rest.  `\d{3,4}` is greedy
and nothing follows it, so no backtracking arises; an optional `-` followed
by a failed digit match cannot be rescued by dropping the `-` (a `-` is not
a digit). -/
def incidentAt : List Char → Option (List Char × List Char)
  | c1 :: c2 :: c3 :: rest =>
    if matchCI c1 'i' && matchCI c2 'n' && matchCI c3 'c' then
      let rest2 := match rest with
        | '-' :: r => r
        | r => r
      let (ds, rest3) := takeDigits 4 rest2
      if 3 ≤ ds.length then some (ds, rest3) else none
    else none
  | _ => none

/-- Match `([A-Z]{2,5})-(\d{1,5})` at the head of the input.  The greedy
quantifier with backtracking succeeds iff the maximal uppercase run has
length 2..5 and is followed by `-` and at least one digit: with a longer
run every backtracking step still faces an uppercase letter where `-` is
required. -/
def jiraAt (s : List Char) : Option (List Char × List Char × List Char) :=
  let r := upperRunLen s
  if 2 ≤ r && r ≤ 5 then
    let letters := s.take r
    match s.drop r with
    | '-' :: rest =>
      let (ds, rest2) := takeDigits 5 rest
      if 1 ≤ ds.length then some (letters, ds, rest2) else none
    | _ => none
  else none

/-- Match `(?:PR[#\s-]?|pull[/\s]?)(\d{2,4})` (with `re.IGNORECASE`) at the
head of the input.  The optional separator class never overlaps `\d`, so
the `?` needs no backtracking; the `PR` branch is tried before `pull`. -/
def prAt (s : List Char) : Option (List Char × List Char) :=
  let digitsPart : List Char → Option (List Char × List Char) := fun cs =>
    let (ds, rest) := takeDigits 4 cs
    if 2 ≤ ds.length then some (ds, rest) else none
  let branchPR : Option (List Char × List Char) :=
    match s with
    | c1 :: c2 :: rest =>
      if matchCI c1 'p' && matchCI c2 'r' then
        match rest with
        | c :: rest2 =>
          if c == '#' || isSpaceCh c || c == '-' then digitsPart rest2
          else digitsPart rest
        | [] => none
      else none
    | _ => none
  match branchPR with
  | some r => some r
  | none =>
    match s with
    | c1 :: c2 :: c3 :: c4 :: rest =>
      if matchCI c1 'p' && matchCI c2 'u' && matchCI c3 'l' && matchCI c4 'l' then
        match rest with
        | c :: rest2 =>
          if c == '/' || isSpaceCh c then digitsPart rest2
          else digitsPart rest
        | [] => none
      else none
    | _ => none

/-- Take the maximal run of characters in `[:\s#]`. -/
def takeSepRun : List Char → List Char × List Char
  | [] => ([], [])
  | c :: cs =>
    if c == ':' || isSpaceCh c || c == '#' then
      let (r, rest) := takeSepRun cs
      (c :: r, rest)
    else ([], c :: cs)

/-- Take the maximal run of `[A-Z]` under `re.IGNORECASE`, i.e. of ASCII
letters of either case. -/
def takeLetterRun : List Char → List Char × List Char
  | [] => ([], [])
  | c :: cs =>
    if isUpperCh c || isLowerCh c then
      let (r, rest) := takeLetterRun cs
      (c :: r, rest)
    else ([], c :: cs)

/-- Take the maximal run of digits. -/
def takeDigitRun : List Char → List Char × List Char
  | [] => ([], [])
  | c :: cs =>
    if isDigitCh c then
      let (r, rest) := takeDigitRun cs
      (c :: r, rest)
    else ([], c :: cs)

/-- Match `(?:ticket|issue)[:\s#]+([A-Z]+-\d+)` (with `re.IGNORECASE`) at
the head of the input.  All adjacent greedy pieces draw from disjoint
character classes, so the greedy interpretation is exact. -/
def ticketAt (s : List Char) : Option (List Char × List Char) :=
  let afterKey : List Char → Option (List Char × List Char) := fun cs =>
    let (seps, rest) := takeSepRun cs
    if seps.length == 0 then none
    else
      let (ls, rest2) := takeLetterRun rest
      if ls.length == 0 then none
      else
        match rest2 with
        | '-' :: rest3 =>
          let (ds, rest4) := takeDigitRun rest3
          if ds.length == 0 then none else some (ls ++ '-' :: ds, rest4)
        | _ => none
  match s with
  | c1 :: c2 :: c3 :: c4 :: c5 :: c6 :: rest =>
    if matchCI c1 't' && matchCI c2 'i' && matchCI c3 'c' && matchCI c4 'k' &&
       matchCI c5 'e' && matchCI c6 't' then
      afterKey rest
    else if matchCI c1 'i' && matchCI c2 's' && matchCI c3 's' && matchCI c4 'u' &&
       matchCI c5 'e' then
      afterKey (c6 :: rest)
    else none
  | c1 :: c2 :: c3 :: c4 :: c5 :: rest =>
    if matchCI c1 'i' && matchCI c2 's' && matchCI c3 's' && matchCI c4 'u' &&
       matchCI c5 'e' then
      afterKey rest
    else none
  | _ => none

/-- `re.finditer` driver: attempt `matchAt` at every position left to right;
on a match, emit its result and resume after the consumed text.  A fuel
argument makes the recursion structural; every successful match of the four
patterns above consumes at least one character, so fuel `s.length` is
enough. -/
def scanWith (matchAt : List Char → Option (List Char × List Char)) :
    Nat → List Char → List String
  | 0, _ => []
  | _ + 1, [] => []
  | fuel + 1, c :: cs =>
    match matchAt (c :: cs) with
    | some (grp, rest) => (⟨grp⟩ : String) :: scanWith matchAt fuel rest
    | none => scanWith matchAt fuel cs

/-- The four reference sets returned by `extract_references`.  Python sets
are modelled as duplicate-free lists in insertion order. -/
structure Refs where
  incident_refs : List String
  jira_refs : List String
  pr_refs : List String
  ticket_ids : List String
deriving Repr, DecidableEq

/-- `set.add`: append if not already present. -/
def setAdd (l : List String) (x : String) : List String :=
  if x ∈ l then l else l ++ [x]

/-- Fold a list of found matches into a set. -/
def setOfList (l : List String) : List String := l.foldl setAdd []

/-- `extract_references(text)` from `build_connections.py`: the four regex
scans, with the incident group canonicalized by
`f"INC{match.group(1).zfill(3)}"` and the jira group by
`f"{match.group(1)}-{match.group(2)}"`. -/
def extract_references (text : String) : Refs :=
  if text = "" then ⟨[], [], [], []⟩
  else
    let cs := text.data
    let incs := (scanWith incidentAt cs.length cs).map (fun d => "INC" ++ zfill 3 d)
    let jiras := scanWith
      (fun s => (jiraAt s).map (fun (l, d, rest) => (l ++ '-' :: d, rest)))
      cs.length cs
    let prs := scanWith prAt cs.length cs
    let tickets := scanWith ticketAt cs.length cs
    ⟨setOfList incs, setOfList jiras, setOfList prs, setOfList tickets⟩

/-! ### Entity model and the reference-match pass (`find_regex_matches`) -/

/-- The metadata dict of an entity as used by the connection builder; a
missing key and an empty value are both falsy in Python, so absent fields
are modelled as `""`. -/
structure Metadata where
  source : String := ""
  type : String := ""
  title : String := ""
  incident_ref : String := ""
  jira_ref : String := ""
  pr_ref : String := ""
  timestamp : String := ""
deriving Repr, DecidableEq

/-- One entity as loaded by `load_all_entities` (id held separately as the
association-list key). -/
structure Entity where
  document : String := ""
  metadata : Metadata := {}
deriving Repr, DecidableEq

/-- The in-memory entity dict `entities`: an association list in insertion
order with unique keys (Python dict keys are unique). -/
abbrev Entities := List (String × Entity)

/-- One discovered connection tuple
`(source_id, target_id, match_reason, confidence)`. -/
structure Conn where
  src : String
  tgt : String
  reason : String
  confidence : ℚ
deriving Repr, DecidableEq

/-- A `defaultdict(list)` keyed by reference string, in insertion order. -/
abbrev Lookup := List (String × List String)

/-- `lookup[ref].append(eid)` on a `defaultdict(list)`. -/
def lookupAdd : Lookup → String → String → Lookup
  | [], ref, eid => [(ref, [eid])]
  | (k, v) :: rest, ref, eid =>
    if k = ref then (k, v ++ [eid]) :: rest
    else (k, v) :: lookupAdd rest ref eid

/-- The three lookup tables built by the first loop of
`find_regex_matches`. -/
structure RefLookups where
  inc : Lookup
  jira : Lookup
  pr : Lookup
deriving Repr

/-- First loop of `find_regex_matches`: for each entity, register its
metadata `incident_ref` (when truthy) and all references extracted from its
document. -/
def buildLookups (entities : Entities) : RefLookups :=
  entities.foldl
    (fun lks (eid, ent) =>
      let lks :=
        if ent.metadata.incident_ref ≠ "" then
          { lks with inc := lookupAdd lks.inc ent.metadata.incident_ref eid }
        else lks
      let refs := extract_references ent.document
      let incL := refs.incident_refs.foldl (fun lk r => lookupAdd lk r eid) lks.inc
      let jiraL := refs.jira_refs.foldl (fun lk r => lookupAdd lk r eid) lks.jira
      let prL := refs.pr_refs.foldl (fun lk r => lookupAdd lk r eid) lks.pr
      ⟨incL, jiraL, prL⟩)
    ⟨[], [], []⟩

/-- All ordered pairs `(l[i], l[j])` with `i < j`, as produced by
`for i, eid1 in enumerate(l): for eid2 in l[i+1:]`. -/
def pairsAfter : List String → List (String × String)
  | [] => []
  | x :: xs => xs.map (fun y => (x, y)) ++ pairsAfter xs

/-- State threaded through the connection loops: the `seen_pairs` set and
the `connections` list. -/
abbrev SeenConns := List (String × String) × List Conn

/-- Shared body of the three connection loops: skip if the sorted pair was
seen, otherwise record it and append the connection. -/
def refPairStep (reason : String) (conf : ℚ) (st : SeenConns) (e : String × String) :
    SeenConns :=
  if sortedPair e.1 e.2 ∈ st.1 then st
  else (st.1 ++ [sortedPair e.1 e.2], st.2 ++ [⟨e.1, e.2, reason, conf⟩])

/-- Incident-based connections: all pairs of entities sharing an incident
reference, confidence 0.95. -/
def incidentBlock (lk : Lookup) (st : SeenConns) : SeenConns :=
  lk.foldl
    (fun st kv =>
      if 1 < kv.2.length then
        (pairsAfter kv.2).foldl (refPairStep ("shared_incident:" ++ kv.1) (mkRat 19 20)) st
      else st)
    st

/-- Jira-based connections: all pairs of entities sharing a Jira reference,
confidence 0.90. -/
def jiraBlock (lk : Lookup) (st : SeenConns) : SeenConns :=
  lk.foldl
    (fun st kv =>
      if 1 < kv.2.length then
        (pairsAfter kv.2).foldl (refPairStep ("shared_jira:" ++ kv.1) (mkRat 9 10)) st
      else st)
    st

/-- PR-based connections: each mentioner is connected to the canonical
`github_pr_<n>` entity when that entity exists, confidence 0.85. -/
def prBlock (entityIds : List String) (lk : Lookup) (st : SeenConns) : SeenConns :=
  lk.foldl
    (fun st kv =>
      if "github_pr_" ++ kv.1 ∈ entityIds then
        kv.2.foldl
          (fun st eid =>
            if eid ≠ "github_pr_" ++ kv.1 then
              refPairStep ("pr_reference:" ++ kv.1) (mkRat 17 20) st (eid, "github_pr_" ++ kv.1)
            else st)
          st
      else st)
    st

/-- `find_regex_matches(entities)` from `build_connections.py`. -/
def find_regex_matches (entities : Entities) : List Conn :=
  let lks := buildLookups entities
  let ids := entities.map Prod.fst
  (prBlock ids lks.pr (jiraBlock lks.jira (incidentBlock lks.inc ([], [])))).2

/-! ### The similarity pass (`find_vector_matches`) and the meeting pass -/

/-- The `existing_pairs` set. -/
abbrev Pairs := List (String × String)

/-- `existing_pairs.add(p)`. -/
def pairAdd (ps : Pairs) (p : String × String) : Pairs :=
  if p ∈ ps then ps else ps ++ [p]

/-- Body of the inner loop of `find_vector_matches`, for one `(match_id,
distance)` result of the vector query for anchor `jira_id`: skip self, skip
same source kind, skip pairs already connected, keep only matches below the
distance threshold whose converted confidence reaches the floor. -/
def vecCandidateStep (jira_id : String) (st : List Conn × Pairs)
    (cand : String × ℚ) : List Conn × Pairs :=
  if cand.1 = jira_id then st
  else if startsWithPy cand.1 "jira_" then st
  else if sortedPair jira_id cand.1 ∈ st.2 then st
  else if cand.2 < VECTOR_SIMILARITY_THRESHOLD then
    if MIN_CONFIDENCE_SCORE ≤ distToConfidence cand.2 then
      (st.1 ++ [⟨jira_id, cand.1, "vector_similarity:" ++ fmt3 cand.2, distToConfidence cand.2⟩],
       st.2 ++ [sortedPair jira_id cand.1])
    else st
  else st

/-- `find_vector_matches(entities, existing_pairs)`: the ChromaDB query on
the anchor's embedding is abstracted as the oracle
`vquery : document ↦ ranked (id, distance) list`; anchors are the entities
whose id starts with `"jira_"`, anchors with empty documents are skipped.
Returns the new connections together with the updated `existing_pairs`
(mutated in place in the source). -/
def find_vector_matches (entities : Entities) (vquery : String → List (String × ℚ))
    (existing_pairs : Pairs) : List Conn × Pairs :=
  (entities.filter (fun e => startsWithPy e.1 "jira_")).foldl
    (fun st e =>
      if e.2.document = "" then st
      else (vquery e.2.document).foldl (vecCandidateStep e.1) st)
    ([], existing_pairs)

/-- Body of the inner loop of `find_meeting_connections` for one candidate
entity: skip self and already-connected pairs, connect when the meeting's
truthy metadata `incident_ref` equals the candidate's. -/
def meetCandidateStep (meeting_id : String) (incident_ref : String)
    (st : List Conn × Pairs) (cand : String × Entity) : List Conn × Pairs :=
  if cand.1 = meeting_id then st
  else if sortedPair meeting_id cand.1 ∈ st.2 then st
  else if incident_ref ≠ "" ∧ cand.2.metadata.incident_ref = incident_ref then
    (st.1 ++ [⟨meeting_id, cand.1, "shared_incident:" ++ incident_ref, mkRat 9 10⟩],
     st.2 ++ [sortedPair meeting_id cand.1])
  else st

/-- `find_meeting_connections(entities, existing_pairs)` from
`build_connections.py`. -/
def find_meeting_connections (entities : Entities) (existing_pairs : Pairs) :
    List Conn × Pairs :=
  (entities.filter (fun e => startsWithPy e.1 "meeting_")).foldl
    (fun st e =>
      entities.foldl (meetCandidateStep e.1 e.2.metadata.incident_ref) st)
    ([], existing_pairs)

/-! ### The SQLite store (`init_sqlite_db`, `store_connections`) -/

/-- One row of the `entity_metadata` table (without the `metadata_json`
column, which is written but never read by any modelled code path). -/
structure MetaRow where
  source : String
  entity_type : String
  title : String
  content_preview : String
  incident_ref : String
  jira_ref : String
  pr_ref : String
  timestamp : String
deriving Repr, DecidableEq

/-- One row of the `entity_connections` table (source and target ids are
the key, held outside of the row). -/
structure ConnRow where
  source_type : String
  target_type : String
  connection_type : String
  confidence_score : ℚ
  match_reason : String
deriving Repr, DecidableEq

/-- The `entity_metadata` table: keyed by `entity_id` (PRIMARY KEY). -/
abbrev MetaTable := List (String × MetaRow)

/-- The `entity_connections` table: keyed by
`(source_entity_id, target_entity_id)` (UNIQUE constraint). -/
abbrev ConnTable := List ((String × String) × ConnRow)

/-- `INSERT OR REPLACE` on a uniquely keyed table: replace the row at the
key if present, else append. -/
def upsertMeta : MetaTable → String → MetaRow → MetaTable
  | [], k, v => [(k, v)]
  | e :: rest, k, v => if e.1 = k then (k, v) :: rest else e :: upsertMeta rest k v

/-- `INSERT OR REPLACE` on `entity_connections`. -/
def upsertConn : ConnTable → String × String → ConnRow → ConnTable
  | [], k, v => [(k, v)]
  | e :: rest, k, v => if e.1 = k then (k, v) :: rest else e :: upsertConn rest k v

/-- The two tables of `entity_connections.db`. -/
structure DB where
  meta : MetaTable
  conns : ConnTable
deriving Repr

/-- The `entity_metadata` row cached for one entity by
`store_connections` (`title[:200]`, `document[:500]`). -/
def metaRowOf (ent : Entity) : MetaRow :=
  { source := ent.metadata.source
    entity_type := ent.metadata.type
    title := pyTake 200 ent.metadata.title
    content_preview := pyTake 500 ent.document
    incident_ref := ent.metadata.incident_ref
    jira_ref := ent.metadata.jira_ref
    pr_ref := ent.metadata.pr_ref
    timestamp := ent.metadata.timestamp }

/-- `entities.get(eid, {}).get("metadata", {}).get("source", "")`. -/
def entitySource (entities : Entities) (eid : String) : String :=
  match entities.find? (fun e => e.1 = eid) with
  | some (_, ent) => ent.metadata.source
  | none => ""

/-- The two `INSERT OR REPLACE` statements executed by `store_connections`
for one discovered connection: a forward row and a reverse row with
swapped source/target and identical type, confidence and reason.  (With
`OR REPLACE`, the `except sqlite3.IntegrityError` handlers in the source
are dead code.) -/
def storeConnStep (entities : Entities) (tbl : ConnTable) (c : Conn) : ConnTable :=
  let srcType := entitySource entities c.src
  let tgtType := entitySource entities c.tgt
  let connType := strColonHead c.reason
  let tbl := upsertConn tbl (c.src, c.tgt)
    ⟨srcType, tgtType, connType, c.confidence, c.reason⟩
  upsertConn tbl (c.tgt, c.src)
    ⟨tgtType, srcType, connType, c.confidence, c.reason⟩

/-- `store_connections(conn, connections, entities)`: cache all entity
metadata, then store every connection bidirectionally. -/
def store_connections (db : DB) (connections : List Conn) (entities : Entities) : DB :=
  let meta := entities.foldl (fun t e => upsertMeta t e.1 (metaRowOf e.2)) db.meta
  let conns := connections.foldl (storeConnStep entities) db.conns
  ⟨meta, conns⟩

/-! ### The MCP API layer (`mcp_api.py`) -/

/-- The dict returned by `mcp_api.get_entity_metadata`: note that both
`preview` (truncated to 200) and `content` are read from the
`content_preview` column. -/
structure MetaOut where
  entity_id : String
  source : String
  type : String
  title : String
  preview : String
  content : String
  timestamp : String
  incident_ref : String
  jira_ref : String
  pr_ref : String
deriving Repr, DecidableEq

/-- `get_entity_metadata(entity_id)` from `mcp_api.py`. -/
def get_entity_metadata (db : DB) (entity_id : String) : Option MetaOut :=
  match db.meta.find? (fun e => e.1 = entity_id) with
  | none => none
  | some (eid, row) =>
    some
      { entity_id := eid
        source := row.source
        type := row.entity_type
        title := row.title
        preview := if row.content_preview = "" then "" else pyTake 200 row.content_preview
        content := row.content_preview
        timestamp := row.timestamp
        incident_ref := row.incident_ref
        jira_ref := row.jira_ref
        pr_ref := row.pr_ref }

/-- One dict of the list returned by `mcp_api.get_entity_connections`. -/
structure ConnOut where
  target_id : String
  target_source : String
  connection_type : String
  confidence : ℚ
  match_reason : String
  title : String
  preview : String
  type : String
deriving Repr, DecidableEq

/-- Stable insertion into a list sorted by descending confidence: the model
of `ORDER BY ec.confidence_score DESC` (SQLite leaves the order of ties
unspecified; this model keeps them in table order). -/
def insertByConf (x : ConnOut) : List ConnOut → List ConnOut
  | [] => [x]
  | y :: ys => if y.confidence < x.confidence then x :: y :: ys else y :: insertByConf x ys

/-- Sort by descending confidence (stable: ties keep table order). -/
def sortByConfDesc (l : List ConnOut) : List ConnOut :=
  l.foldl (fun acc x => insertByConf x acc) []

/-- The SELECT of `mcp_api.get_entity_connections`: all rows with the given
source id, LEFT JOINed with `entity_metadata` on the target. -/
def connOutOf (db : DB) (e : (String × String) × ConnRow) : ConnOut :=
  let joined := db.meta.find? (fun m => m.1 = e.1.2)
  { target_id := e.1.2
    target_source := e.2.target_type
    connection_type := e.2.connection_type
    confidence := e.2.confidence_score
    match_reason := e.2.match_reason
    title := (joined.map (fun m => m.2.title)).getD ""
    preview := pyTake 200 ((joined.map (fun m => m.2.content_preview)).getD "")
    type := (joined.map (fun m => m.2.entity_type)).getD "" }

/-- `get_entity_connections(entity_id)` from `mcp_api.py`. -/
def get_entity_connections (db : DB) (entity_id : String) : List ConnOut :=
  sortByConfDesc ((db.conns.filter (fun e => e.1.1 = entity_id)).map (connOutOf db))

/-- One grouped connection dict of `get_entity_by_id`. -/
structure GroupedConn where
  entity_id : String
  title : String
  preview : String
  type : String
  connection_type : String
  confidence : ℚ
  match_reason : String
deriving Repr, DecidableEq

/-- The `EntityDetails` pydantic model. -/
structure EntityDetails where
  entity_id : String
  source : String
  type : String
  title : String
  content : String
  preview : String
  timestamp : String
  incident_ref : String
  jira_ref : String
  pr_ref : String
  connections : List (String × List GroupedConn)
deriving Repr, DecidableEq

/-- Append `v` to the group of key `k` (Python dict of lists, insertion
order). -/
def groupAdd (l : List (String × List GroupedConn)) (k : String) (v : GroupedConn) :
    List (String × List GroupedConn) :=
  match l with
  | [] => [(k, [v])]
  | (k', vs) :: rest =>
    if k' = k then (k', vs ++ [v]) :: rest else (k', vs) :: groupAdd rest k v

/-- `get_entity_by_id(entity_id)` from `mcp_api.py`: metadata plus
connections grouped by target source. -/
def get_entity_by_id (db : DB) (entity_id : String) : Option EntityDetails :=
  match get_entity_metadata db entity_id with
  | none => none
  | some m =>
    let connections := get_entity_connections db entity_id
    let grouped := connections.foldl
      (fun acc c => groupAdd acc c.target_source
        { entity_id := c.target_id
          title := c.title
          preview := c.preview
          type := c.type
          connection_type := c.connection_type
          confidence := c.confidence
          match_reason := c.match_reason })
      []
    some
      { entity_id := m.entity_id
        source := m.source
        type := m.type
        title := m.title
        content := m.content
        preview := m.preview
        timestamp := m.timestamp
        incident_ref := m.incident_ref
        jira_ref := m.jira_ref
        pr_ref := m.pr_ref
        connections := grouped }

/-! ### The graph traversal engine (`build_connection_graph`) -/

/-- The `GraphNode` pydantic model. -/
structure GraphNode where
  id : String
  source : String
  type : String
  title : String
  preview : String
deriving Repr, DecidableEq

/-- The `GraphEdge` pydantic model. -/
structure GraphEdge where
  source : String
  target : String
  connection_type : String
  confidence : ℚ
  match_reason : String
deriving Repr, DecidableEq

/-- The mutable state of the `while` loop of `build_connection_graph`:
`nodes` (a dict keyed by entity id), `edges`, `seen_edges`,
`entities_to_process`, `processed` and `current_depth`. -/
structure BCGState where
  nodes : List (String × GraphNode)
  edges : List GraphEdge
  seenEdges : List (String × String)
  toProcess : List String
  processed : List String
  depth : Nat
deriving Repr

/-- `add_node(entity_id)`: add a node if not present and its metadata
exists (entities without metadata are silently skipped). -/
def addNode (db : DB) (nodes : List (String × GraphNode)) (entity_id : String) :
    List (String × GraphNode) :=
  if nodes.any (fun n => n.1 = entity_id) then nodes
  else
    match get_entity_metadata db entity_id with
    | some m =>
      nodes ++ [(entity_id,
        { id := entity_id, source := m.source, type := m.type,
          title := m.title, preview := m.preview })]
    | none => nodes

/-- `add_edge(...)`: add an edge once per unordered pair. -/
def addEdge (edges : List GraphEdge) (seen : List (String × String))
    (source_id target_id : String) (conn_type : String) (confidence : ℚ)
    (reason : String) : List GraphEdge × List (String × String) :=
  let key := sortedPair source_id target_id
  if key ∈ seen then (edges, seen)
  else (edges ++ [{ source := source_id, target := target_id,
                    connection_type := conn_type, confidence := confidence,
                    match_reason := reason }], seen ++ [key])

/-- Accumulator of the per-level `for entity_id in entities_to_process`
loop: nodes, edges, seen edge keys, processed set, and `next_level`. -/
structure LevelAcc where
  nodes : List (String × GraphNode)
  edges : List GraphEdge
  seenEdges : List (String × String)
  processed : List String
  nextLevel : List String
deriving Repr

/-- Inner loop of `build_connection_graph` over the connections of one
processed entity: add the target node, add the edge, and queue the target
for the next level unless already processed or at the depth limit. -/
def connLoop (db : DB) (maxDepth : Nat) (depth : Nat) (entity_id : String)
    (acc : LevelAcc) (conns : List ConnOut) : LevelAcc :=
  conns.foldl
    (fun acc conn =>
      { nodes := addNode db acc.nodes conn.target_id
        edges := (addEdge acc.edges acc.seenEdges entity_id conn.target_id
          conn.connection_type conn.confidence conn.match_reason).1
        seenEdges := (addEdge acc.edges acc.seenEdges entity_id conn.target_id
          conn.connection_type conn.confidence conn.match_reason).2
        processed := acc.processed
        nextLevel :=
          if conn.target_id ∉ acc.processed ∧ depth < maxDepth then
            acc.nextLevel ++ [conn.target_id]
          else acc.nextLevel })
    acc

/-- Body of the per-level loop for one entity of the current frontier. -/
def processEntity (db : DB) (maxDepth : Nat) (depth : Nat) (acc : LevelAcc)
    (entity_id : String) : LevelAcc :=
  if entity_id ∈ acc.processed then acc
  else
    let acc := { acc with processed := acc.processed ++ [entity_id] }
    let acc := { acc with nodes := addNode db acc.nodes entity_id }
    connLoop db maxDepth depth entity_id acc (get_entity_connections db entity_id)

/-- One iteration of the `while` loop: process the whole current frontier
and advance to the next depth. -/
def levelStep (db : DB) (maxDepth : Nat) (st : BCGState) : BCGState :=
  let acc := st.toProcess.foldl (processEntity db maxDepth st.depth)
    ⟨st.nodes, st.edges, st.seenEdges, st.processed, []⟩
  { nodes := acc.nodes, edges := acc.edges, seenEdges := acc.seenEdges,
    toProcess := acc.nextLevel, processed := acc.processed, depth := st.depth + 1 }

/-- Negation of the loop condition
`while entities_to_process and current_depth <= max_depth`. -/
def bcgDone (maxDepth : Nat) (st : BCGState) : Bool :=
  st.toProcess.isEmpty || decide (maxDepth < st.depth)

/-- The `while` loop, driven by fuel; `bcgRun_stable` below proves that
`maxDepth + 1` fuel always reaches the exit condition, i.e. the source's
loop terminates. -/
def bcgRun (db : DB) (maxDepth : Nat) : Nat → BCGState → BCGState
  | 0, st => st
  | fuel + 1, st =>
    if bcgDone maxDepth st then st else bcgRun db maxDepth fuel (levelStep db maxDepth st)

/-- Initial loop state for seeds `sub_entity_ids`. -/
def bcgInit (sub_entity_ids : List String) : BCGState :=
  ⟨[], [], [], sub_entity_ids, [], 0⟩

/-- `build_connection_graph(sub_entity_ids, max_depth)` from `mcp_api.py`:
the final nodes (dict values) and edges. -/
def build_connection_graph (db : DB) (sub_entity_ids : List String)
    (max_depth : Nat) : List GraphNode × List GraphEdge :=
  let final := bcgRun db max_depth (max_depth + 1) (bcgInit sub_entity_ids)
  (final.nodes.map Prod.snd, final.edges)

/-! ### The retrieval orchestrator (`search_with_connections`) -/

/-- One weekly summary as returned by `search_weekly_summaries` (only the
fields consumed by `search_with_connections`; the ChromaDB-backed search
itself is an oracle parameter). -/
structure Summary where
  summary_id : String
  sub_entity_ids : List String
deriving Repr, DecidableEq

/-- The `ConnectionGraph` pydantic model. -/
structure ConnectionGraph where
  query : String
  root_summaries : List String
  nodes : List GraphNode
  edges : List GraphEdge
  node_count : Nat
  edge_count : Nat
deriving Repr, DecidableEq

/-- Order-preserving dedup of the collected sub-entity ids, dropping empty
ids (`if eid and eid not in seen`). -/
def dedupIds (ids : List String) : List String :=
  (ids.foldl (fun acc eid =>
    if eid ≠ "" ∧ eid ∉ acc then acc ++ [eid] else acc) [])

/-- `search_with_connections(query, top_k, graph_depth)` from `mcp_api.py`,
with the summary vector search abstracted as
`searchSummaries : query ↦ top-k summaries`. -/
def search_with_connections (db : DB)
    (searchSummaries : String → Nat → List Summary)
    (query : String) (top_k : Nat) (graph_depth : Nat) : ConnectionGraph :=
  let summaries := searchSummaries query top_k
  let root_summary_ids := summaries.map Summary.summary_id
  let all_sub_entity_ids := summaries.flatMap Summary.sub_entity_ids
  let unique_sub_entity_ids := dedupIds all_sub_entity_ids
  let graph := build_connection_graph db unique_sub_entity_ids graph_depth
  { query := query
    root_summaries := root_summary_ids
    nodes := graph.1
    edges := graph.2
    node_count := graph.1.length
    edge_count := graph.2.length }

/-! ### The batch pipeline (`main` of `build_connections.py`) -/

/-- The sorted-pair set accumulated by `main` over the regex connections
before the similarity pass. -/
def regexPairs (regexConns : List Conn) : Pairs :=
  regexConns.foldl (fun ps c => pairAdd ps (sortedPair c.src c.tgt)) []

/-- `main()` of `build_connections.py`, from `find_regex_matches` to
`store_connections`, on a fresh database: returns the stored DB. -/
def mainStore (entities : Entities) (vquery : String → List (String × ℚ)) : DB :=
  let regex_connections := find_regex_matches entities
  let existing_pairs := regexPairs regex_connections
  let vec := find_vector_matches entities vquery existing_pairs
  let meet := find_meeting_connections entities vec.2
  let all_connections := regex_connections ++ vec.1 ++ meet.1
  store_connections ⟨[], []⟩ all_connections entities

/-! ### Hop distance over the stored connection graph -/

/-- Stored neighbor ids of an entity: the targets returned by
`get_entity_connections`. -/
def neighborIds (db : DB) (eid : String) : List String :=
  (get_entity_connections db eid).map ConnOut.target_id

/-- Entities within `d` hops of the seed set over the stored connection
graph (not deduplicated; used only through membership). -/
def reachN (db : DB) (seeds : List String) : Nat → List String
  | 0 => seeds
  | d + 1 => reachN db seeds d ++ (reachN db seeds d).flatMap (neighborIds db)

/-! ### Helper lemmas -/

theorem mkRat_19_20 : (mkRat 19 20 : ℚ) = 19 / 20 := by
  rw [Rat.mkRat_eq_div]; norm_num

theorem mkRat_9_10 : (mkRat 9 10 : ℚ) = 9 / 10 := by
  rw [Rat.mkRat_eq_div]; norm_num

theorem mkRat_17_20 : (mkRat 17 20 : ℚ) = 17 / 20 := by
  rw [Rat.mkRat_eq_div]; norm_num

theorem mkRat_4_5 : (mkRat 4 5 : ℚ) = 4 / 5 := by
  rw [Rat.mkRat_eq_div]; norm_num

/-- A list is a prefix of itself followed by anything. -/
theorem isPrefixOf_self_append (l r : List Char) : l.isPrefixOf (l ++ r) = true := by
  rw [List.isPrefixOf_iff_prefix]
  exact List.prefix_append l r

/-- `"p…".startswith("p")` for strings built by appending to the prefix. -/
theorem startsWithPy_append (p s : String) : startsWithPy (p ++ s) p = true := by
  rw [startsWithPy, String.data_append]; exact isPrefixOf_self_append _ _

/-- `takeWhile` stops exactly at the first failing character. -/
theorem takeWhile_append_stop {p : Char → Bool} :
    ∀ (l1 : List Char) (c : Char) (l2 : List Char),
      (∀ x ∈ l1, p x = true) → p c = false → (l1 ++ c :: l2).takeWhile p = l1 := by
  intro l1
  induction l1 with
  | nil => intro c l2 _ hc; simp [List.takeWhile, hc]
  | cons a l ih =>
    intro c l2 h hc
    have ha : p a = true := h a (by simp)
    simp [List.takeWhile, ha, ih c l2 (fun x hx => h x (by simp [hx])) hc]

theorem strColonHead_shared_incident (r : String) :
    strColonHead ("shared_incident:" ++ r) = "shared_incident" := by
  have hdata : ("shared_incident:" ++ r).data = "shared_incident".data ++ ':' :: r.data := by
    rw [String.data_append,
      show ("shared_incident:").data = "shared_incident".data ++ [':'] by decide,
      List.append_assoc, List.singleton_append]
  rw [strColonHead, hdata, takeWhile_append_stop _ _ _ (by decide) (by decide)]

theorem strColonHead_shared_jira (r : String) :
    strColonHead ("shared_jira:" ++ r) = "shared_jira" := by
  have hdata : ("shared_jira:" ++ r).data = "shared_jira".data ++ ':' :: r.data := by
    rw [String.data_append,
      show ("shared_jira:").data = "shared_jira".data ++ [':'] by decide,
      List.append_assoc, List.singleton_append]
  rw [strColonHead, hdata, takeWhile_append_stop _ _ _ (by decide) (by decide)]

theorem strColonHead_pr_reference (r : String) :
    strColonHead ("pr_reference:" ++ r) = "pr_reference" := by
  have hdata : ("pr_reference:" ++ r).data = "pr_reference".data ++ ':' :: r.data := by
    rw [String.data_append,
      show ("pr_reference:").data = "pr_reference".data ++ [':'] by decide,
      List.append_assoc, List.singleton_append]
  rw [strColonHead, hdata, takeWhile_append_stop _ _ _ (by decide) (by decide)]

/-- Connections appended by `refPairStep` are the given pair with the given
reason and confidence. -/
theorem refPairStep_mem {reason : String} {conf : ℚ} {st : SeenConns}
    {e : String × String} {c : Conn} (h : c ∈ (refPairStep reason conf st e).2) :
    c ∈ st.2 ∨ c = ⟨e.1, e.2, reason, conf⟩ := by
  unfold refPairStep at h
  split at h
  · exact Or.inl h
  · simpa using h

/-- Connections appended by a fold of `refPairStep` over a pair list. -/
theorem foldl_refPairStep_mem {reason : String} {conf : ℚ} :
    ∀ (ps : List (String × String)) (st : SeenConns) (c : Conn),
      c ∈ (ps.foldl (refPairStep reason conf) st).2 →
      c ∈ st.2 ∨ ∃ e ∈ ps, c = ⟨e.1, e.2, reason, conf⟩ := by
  intro ps
  induction ps with
  | nil => intro st c h; exact Or.inl h
  | cons e ps ih =>
    intro st c h
    rcases ih _ _ h with h' | ⟨e', he', rfl⟩
    · rcases refPairStep_mem h' with h'' | rfl
      · exact Or.inl h''
      · exact Or.inr ⟨e, by simp, rfl⟩
    · exact Or.inr ⟨e', by simp [he'], rfl⟩

/-- Every connection appended by the incident loop carries a
`shared_incident:` reason and confidence 0.95. -/
theorem incidentBlock_mem {lk : Lookup} :
    ∀ {st : SeenConns} {c : Conn}, c ∈ (incidentBlock lk st).2 →
      c ∈ st.2 ∨ ∃ ref, c.reason = "shared_incident:" ++ ref ∧ c.confidence = mkRat 19 20 := by
  unfold incidentBlock
  induction lk with
  | nil => intro st c h; exact Or.inl h
  | cons kv lk ih =>
    intro st c h
    rcases ih h with h' | hr
    · dsimp only at h'
      by_cases hlen : 1 < kv.2.length
      · rw [if_pos hlen] at h'
        rcases foldl_refPairStep_mem _ _ _ h' with h'' | ⟨e, _, rfl⟩
        · exact Or.inl h''
        · exact Or.inr ⟨kv.1, rfl, rfl⟩
      · rw [if_neg hlen] at h'
        exact Or.inl h'
    · exact Or.inr hr

/-- Every connection appended by the jira loop carries a `shared_jira:`
reason and confidence 0.90. -/
theorem jiraBlock_mem {lk : Lookup} :
    ∀ {st : SeenConns} {c : Conn}, c ∈ (jiraBlock lk st).2 →
      c ∈ st.2 ∨ ∃ ref, c.reason = "shared_jira:" ++ ref ∧ c.confidence = mkRat 9 10 := by
  unfold jiraBlock
  induction lk with
  | nil => intro st c h; exact Or.inl h
  | cons kv lk ih =>
    intro st c h
    rcases ih h with h' | hr
    · dsimp only at h'
      by_cases hlen : 1 < kv.2.length
      · rw [if_pos hlen] at h'
        rcases foldl_refPairStep_mem _ _ _ h' with h'' | ⟨e, _, rfl⟩
        · exact Or.inl h''
        · exact Or.inr ⟨kv.1, rfl, rfl⟩
      · rw [if_neg hlen] at h'
        exact Or.inl h'
    · exact Or.inr hr

/-- Every connection appended by the PR loop targets the existing canonical
`github_pr_<ref>` entity, is not a self-loop, and carries a
`pr_reference:` reason with confidence 0.85. -/
theorem prBlock_mem {ids : List String} {lk : Lookup} :
    ∀ {st : SeenConns} {c : Conn}, c ∈ (prBlock ids lk st).2 →
      c ∈ st.2 ∨ ∃ ref, c.tgt = "github_pr_" ++ ref ∧ ("github_pr_" ++ ref) ∈ ids ∧
        c.src ≠ c.tgt ∧ c.reason = "pr_reference:" ++ ref ∧ c.confidence = mkRat 17 20 := by
  unfold prBlock
  induction lk with
  | nil => intro st c h; exact Or.inl h
  | cons kv lk ih =>
    intro st c h
    rcases ih h with h' | hr
    · dsimp only at h'
      by_cases hin : "github_pr_" ++ kv.1 ∈ ids
      · rw [if_pos hin] at h'
        have inner : ∀ (eids : List String) (st : SeenConns),
            c ∈ ((eids.foldl (fun st eid =>
              if eid ≠ "github_pr_" ++ kv.1 then
                refPairStep ("pr_reference:" ++ kv.1) (mkRat 17 20) st (eid, "github_pr_" ++ kv.1)
              else st) st)).2 →
            c ∈ st.2 ∨ ∃ ref, c.tgt = "github_pr_" ++ ref ∧ ("github_pr_" ++ ref) ∈ ids ∧
              c.src ≠ c.tgt ∧ c.reason = "pr_reference:" ++ ref ∧ c.confidence = mkRat 17 20 := by
          intro eids
          induction eids with
          | nil => intro st h; exact Or.inl h
          | cons eid eids ih2 =>
            intro st h
            rcases ih2 _ h with h' | hr
            · dsimp only at h'
              by_cases hne : eid ≠ "github_pr_" ++ kv.1
              · rw [if_pos hne] at h'
                rcases refPairStep_mem h' with h'' | rfl
                · exact Or.inl h''
                · exact Or.inr ⟨kv.1, rfl, hin, hne, rfl, rfl⟩
              · rw [if_neg hne] at h'
                exact Or.inl h'
            · exact Or.inr hr
        exact inner kv.2 st h'
      · rw [if_neg hin] at h'
        exact Or.inl h'
    · exact Or.inr hr

/-! ### Concrete inputs used by counterexamples and witnesses -/

/-- Two entities that merely co-mention the Jira reference `ENG-99`; no
entity `jira_ENG-99` exists. -/
def entitiesCoMention : Entities :=
  [("slack_1", { document := "see ENG-99" }),
   ("email_1", { document := "re ENG-99" })]

/-- A meeting entity whose metadata `incident_ref` is `INC001` and whose
document also mentions `INC001`: it enters the incident lookup twice. -/
def entitiesSelfLoop : Entities :=
  [("meeting_1", { document := "Discussing INC001 follow-up",
                   metadata := { source := "meeting", incident_ref := "INC001" } })]

/-- The spec's build scenario: `jira_ENG-1` and `slack_T1`, both of whose
contents mention `ENG-1`. -/
def entitiesScenario : Entities :=
  [("jira_ENG-1", { document := "following up on ENG-1",
                    metadata := { source := "jira" } }),
   ("slack_T1", { document := "following up on ENG-1",
                  metadata := { source := "slack" } })]

/-- The database after a full build (`main`) over `entitiesScenario` with a
vector index returning no results. -/
def dbScenario : DB := mainStore entitiesScenario (fun _ => [])

/-- Two entities co-mentioning incident `INC042` (an incident-stage edge,
confidence 0.95). -/
def entitiesIncidentPair : Entities :=
  [("slack_9", { document := "INC042 page" }),
   ("meeting_9", { document := "retro INC042" })]

/-- A canonical `github_pr_101` entity and a Jira ticket mentioning
`PR-101`. -/
def entitiesPrStar : Entities :=
  [("github_pr_101", {}), ("jira_X", { document := "see PR-101" })]

/-! ### C1 — star shape of the reference-match pass -/

/-- C1 (counterexample): the claim says entities that merely co-mention the
same reference with no canonical owner present are never connected; but on
`entitiesCoMention` (both documents mention `ENG-99`, and no `jira_ENG-99`
entity exists) `find_regex_matches` produces exactly the
mentioner-to-mentioner edge `slack_1 — email_1`. -/
theorem C1_counterexample :
    find_regex_matches entitiesCoMention
      = [⟨"slack_1", "email_1", "shared_jira:ENG-99", mkRat 9 10⟩]
    ∧ "jira_ENG-99" ∉ entitiesCoMention.map Prod.fst
    ∧ (∃ c ∈ find_regex_matches entitiesCoMention,
        c.src ≠ "jira_ENG-99" ∧ c.tgt ≠ "jira_ENG-99") := by
  refine ⟨by decide, by decide, ?_⟩
  exact ⟨⟨"slack_1", "email_1", "shared_jira:ENG-99", mkRat 9 10⟩,
    by decide, by decide, by decide⟩

/-- C1 (amended): only the PR stage of the reference-match pass is a star
around a canonical entity: every connection of `find_regex_matches` either
comes from the incident/jira stages (which connect co-mentioners pairwise,
with no canonical-owner requirement) or targets the existing canonical
`github_pr_…` entity and is not a self-loop. -/
theorem C1_amended_pr_star (entities : Entities) (c : Conn)
    (h : c ∈ find_regex_matches entities) :
    c ∈ (jiraBlock (buildLookups entities).jira
          (incidentBlock (buildLookups entities).inc ([], []))).2
    ∨ (startsWithPy c.tgt "github_pr_" = true
        ∧ c.tgt ∈ entities.map Prod.fst ∧ c.src ≠ c.tgt) := by
  rcases prBlock_mem h with h' | ⟨ref, htgt, hin, hne, _, _⟩
  · exact Or.inl h'
  · refine Or.inr ⟨?_, ?_, hne⟩
    · rw [htgt]; exact startsWithPy_append _ _
    · rw [htgt]; exact hin

/-- Witness for C1 (amended), at the concrete `entitiesPrStar` input. -/
theorem C1_amended_pr_star_witness :
    (⟨"jira_X", "github_pr_101", "pr_reference:101", mkRat 17 20⟩ : Conn)
        ∈ (jiraBlock (buildLookups entitiesPrStar).jira
            (incidentBlock (buildLookups entitiesPrStar).inc ([], []))).2
    ∨ (startsWithPy (Conn.tgt ⟨"jira_X", "github_pr_101", "pr_reference:101", mkRat 17 20⟩)
          "github_pr_" = true
        ∧ (Conn.tgt ⟨"jira_X", "github_pr_101", "pr_reference:101", mkRat 17 20⟩)
            ∈ entitiesPrStar.map Prod.fst
        ∧ (Conn.src ⟨"jira_X", "github_pr_101", "pr_reference:101", mkRat 17 20⟩)
            ≠ (Conn.tgt ⟨"jira_X", "github_pr_101", "pr_reference:101", mkRat 17 20⟩)) :=
  C1_amended_pr_star entitiesPrStar _ (by decide)

/-! ### C4 — no self-loops -/

/-- C4 (the code violates the no-self-loop invariant): on
`entitiesSelfLoop` — a single meeting whose metadata `incident_ref` equals
an incident reference also extracted from its own document — the incident
stage pairs the two occurrences of the same entity and emits the self-loop
`meeting_1 → meeting_1` with confidence 0.95.  (The vector and meeting
passes skip self explicitly; the regex pass does not.) -/
theorem C4_self_loop :
    find_regex_matches entitiesSelfLoop
      = [⟨"meeting_1", "meeting_1", "shared_incident:INC001", mkRat 19 20⟩]
    ∧ ∃ c ∈ find_regex_matches entitiesSelfLoop, c.src = c.tgt := by
  refine ⟨by decide, ?_⟩
  exact ⟨⟨"meeting_1", "meeting_1", "shared_incident:INC001", mkRat 19 20⟩,
    by decide, by decide⟩

/-! ### C5 — confidences and connection types of the reference pass -/

/-- C5 (counterexample): on the spec's own scenario the stored edge for
`jira_ENG-1 — slack_T1` has `connection_type = "shared_jira"`, not
`"reference-match"`; and the reference pass is not constant-0.90: incident
edges carry 0.95. -/
theorem C5_counterexample :
    (∃ e ∈ get_entity_connections dbScenario "jira_ENG-1",
        e.target_id = "slack_T1" ∧ e.connection_type = "shared_jira"
        ∧ e.confidence = mkRat 9 10)
    ∧ (mkRat 9 10 : ℚ) = 9 / 10
    ∧ ¬(∃ e ∈ get_entity_connections dbScenario "jira_ENG-1",
        e.target_id = "slack_T1" ∧ e.connection_type = "reference-match")
    ∧ (∃ c ∈ find_regex_matches entitiesIncidentPair, c.confidence ≠ mkRat 9 10) := by
  refine ⟨?_, mkRat_9_10, by decide, by decide⟩
  exact ⟨⟨"slack_T1", "slack", "shared_jira", mkRat 9 10, "shared_jira:ENG-1",
    "", "following up on ENG-1", ""⟩, by decide, by decide, by decide, by decide⟩

/-- C5 (amended): every edge produced by the reference-match pass carries
one of the three stage-specific types and confidences — `shared_incident`
with 0.95, `shared_jira` with 0.90, or `pr_reference` with 0.85 (the stored
`connection_type` is `match_reason.split(":")[0]`, never
`"reference-match"`). -/
theorem C5_amended_stage_confidences (entities : Entities) (c : Conn)
    (h : c ∈ find_regex_matches entities) :
    (strColonHead c.reason = "shared_incident" ∧ c.confidence = 19 / 20)
    ∨ (strColonHead c.reason = "shared_jira" ∧ c.confidence = 9 / 10)
    ∨ (strColonHead c.reason = "pr_reference" ∧ c.confidence = 17 / 20) := by
  rcases prBlock_mem h with h1 | ⟨ref, _, _, _, hreason, hconf⟩
  · rcases jiraBlock_mem h1 with h2 | ⟨ref, hreason, hconf⟩
    · rcases incidentBlock_mem h2 with h3 | ⟨ref, hreason, hconf⟩
      · simp at h3
      · exact Or.inl ⟨by rw [hreason, strColonHead_shared_incident],
          by rw [hconf, mkRat_19_20]⟩
    · exact Or.inr (Or.inl ⟨by rw [hreason, strColonHead_shared_jira],
        by rw [hconf, mkRat_9_10]⟩)
  · exact Or.inr (Or.inr ⟨by rw [hreason, strColonHead_pr_reference],
      by rw [hconf, mkRat_17_20]⟩)

/-- Witness for C5 (amended), at the scenario's jira-stage edge. -/
theorem C5_amended_stage_confidences_witness :
    (strColonHead "shared_jira:ENG-1" = "shared_incident" ∧ (mkRat 9 10 : ℚ) = 19 / 20)
    ∨ (strColonHead "shared_jira:ENG-1" = "shared_jira" ∧ (mkRat 9 10 : ℚ) = 9 / 10)
    ∨ (strColonHead "shared_jira:ENG-1" = "pr_reference" ∧ (mkRat 9 10 : ℚ) = 17 / 20) :=
  C5_amended_stage_confidences entitiesScenario
    ⟨"jira_ENG-1", "slack_T1", "shared_jira:ENG-1", mkRat 9 10⟩ (by decide)

/-! ### C6 — distance-to-confidence conversion of the similarity pass -/

/-- C6: for a similarity candidate at distance `d` that is not the anchor,
not of the anchor's source kind, not already paired, and below the distance
threshold, the produced edge carries confidence exactly `max 0 (1 - d / 2)`
and is kept iff that value reaches the 0.5 floor. -/
theorem C6_similarity_confidence (jira_id match_id : String)
    (st : List Conn × Pairs) (d : ℚ)
    (h1 : match_id ≠ jira_id) (h2 : startsWithPy match_id "jira_" = false)
    (h3 : sortedPair jira_id match_id ∉ st.2)
    (h4 : d < VECTOR_SIMILARITY_THRESHOLD) :
    (MIN_CONFIDENCE_SCORE ≤ distToConfidence d →
      vecCandidateStep jira_id st (match_id, d)
        = (st.1 ++ [⟨jira_id, match_id, "vector_similarity:" ++ fmt3 d,
             distToConfidence d⟩],
           st.2 ++ [sortedPair jira_id match_id]))
    ∧ (distToConfidence d < MIN_CONFIDENCE_SCORE →
        vecCandidateStep jira_id st (match_id, d) = st)
    ∧ distToConfidence d = max 0 (1 - d / 2)
    ∧ MIN_CONFIDENCE_SCORE = 1 / 2 := by
  refine ⟨?_, ?_, distToConfidence_eq d, MIN_CONFIDENCE_SCORE_eq⟩
  · intro h5
    unfold vecCandidateStep
    dsimp only
    rw [if_neg h1, h2, if_neg Bool.false_ne_true, if_neg h3, if_pos h4, if_pos h5]
  · intro h5
    unfold vecCandidateStep
    dsimp only
    rw [if_neg h1, h2, if_neg Bool.false_ne_true, if_neg h3, if_pos h4,
      if_neg (not_le.mpr h5)]

/-- Witness for C6: a neighbor at distance 0.4 yields confidence exactly
0.8. -/
theorem C6_similarity_confidence_witness :
    vecCandidateStep "jira_T123" ([], []) ("doc_42", mkRat 2 5)
      = ([⟨"jira_T123", "doc_42", "vector_similarity:" ++ fmt3 (mkRat 2 5),
           distToConfidence (mkRat 2 5)⟩],
         [sortedPair "jira_T123" "doc_42"])
    ∧ distToConfidence (mkRat 2 5) = max 0 (1 - mkRat 2 5 / 2)
    ∧ distToConfidence (mkRat 2 5) = 4 / 5 := by
  have h := C6_similarity_confidence "jira_T123" "doc_42" ([], []) (mkRat 2 5)
    (by decide) (by decide) (by decide) (by decide)
  refine ⟨h.1 (by decide), h.2.2.1, ?_⟩
  rw [show distToConfidence (mkRat 2 5) = mkRat 4 5 by decide, mkRat_4_5]

/-! ### C3 — symmetry of the stored connections -/

/-- Row lookup by the unique key `(source, target)` (analysis device for
reasoning about the keyed table). -/
def lookupConnRow : ConnTable → String × String → Option ConnRow
  | [], _ => none
  | e :: tbl, k => if e.1 = k then some e.2 else lookupConnRow tbl k

theorem lookupConnRow_upsert :
    ∀ (tbl : ConnTable) (k : String × String) (v : ConnRow) (k' : String × String),
      lookupConnRow (upsertConn tbl k v) k'
        = if k' = k then some v else lookupConnRow tbl k' := by
  intro tbl k v
  induction tbl with
  | nil =>
    intro k'
    by_cases h : k' = k
    · subst h; simp [upsertConn, lookupConnRow]
    · simp [upsertConn, lookupConnRow, h, Ne.symm h]
  | cons e tbl ih =>
    intro k'
    unfold upsertConn
    by_cases he : e.1 = k
    · rw [if_pos he]
      by_cases h : k' = k
      · subst h; simp [lookupConnRow]
      · rw [if_neg h]
        unfold lookupConnRow
        rw [if_neg (fun hkk : k = k' => h hkk.symm),
          if_neg (fun hek : e.1 = k' => h (he ▸ hek).symm)]
    · rw [if_neg he]
      unfold lookupConnRow
      by_cases h2 : e.1 = k'
      · rw [if_pos h2, if_pos h2, if_neg (fun hkk : k' = k => he (h2.trans hkk))]
      · rw [if_neg h2, if_neg h2, ih k']

/-- Keys of an upserted table come from the old table or are the new key. -/
theorem mem_keys_upsertConn :
    ∀ (tbl : ConnTable) (k : String × String) (v : ConnRow) (x : String × String),
      x ∈ (upsertConn tbl k v).map Prod.fst → x ∈ tbl.map Prod.fst ∨ x = k := by
  intro tbl k v
  induction tbl with
  | nil => intro x hx; simp [upsertConn] at hx; exact Or.inr hx
  | cons e tbl ih =>
    intro x hx
    unfold upsertConn at hx
    by_cases he : e.1 = k
    · rw [if_pos he] at hx
      simp only [List.map_cons, List.mem_cons] at hx
      rcases hx with rfl | hx'
      · exact Or.inr rfl
      · exact Or.inl (by simp only [List.map_cons, List.mem_cons]; exact Or.inr hx')
    · rw [if_neg he] at hx
      simp only [List.map_cons, List.mem_cons] at hx
      rcases hx with rfl | hx'
      · exact Or.inl (by simp)
      · rcases ih x hx' with h' | h'
        · exact Or.inl (by simp only [List.map_cons, List.mem_cons]; exact Or.inr h')
        · exact Or.inr h'

/-- Upserting preserves key uniqueness. -/
theorem upsertConn_nodup :
    ∀ (tbl : ConnTable) (k : String × String) (v : ConnRow),
      (tbl.map Prod.fst).Nodup → ((upsertConn tbl k v).map Prod.fst).Nodup := by
  intro tbl k v
  induction tbl with
  | nil => intro _; simp [upsertConn]
  | cons e tbl ih =>
    intro hnd
    simp only [List.map_cons, List.nodup_cons] at hnd
    unfold upsertConn
    by_cases he : e.1 = k
    · rw [if_pos he]
      simp only [List.map_cons, List.nodup_cons]
      exact ⟨he ▸ hnd.1, hnd.2⟩
    · rw [if_neg he]
      simp only [List.map_cons, List.nodup_cons]
      refine ⟨fun hx => ?_, ih hnd.2⟩
      rcases mem_keys_upsertConn tbl k v e.1 hx with h' | h'
      · exact hnd.1 h'
      · exact he h'

/-- Membership in a uniquely keyed table coincides with lookup. -/
theorem lookupConnRow_of_mem :
    ∀ (tbl : ConnTable), (tbl.map Prod.fst).Nodup →
      ∀ e ∈ tbl, lookupConnRow tbl e.1 = some e.2 := by
  intro tbl
  induction tbl with
  | nil => intro _ e he; simp at he
  | cons f tbl ih =>
    intro hnd e he
    simp only [List.map_cons, List.nodup_cons] at hnd
    rcases List.mem_cons.mp he with rfl | he'
    · simp [lookupConnRow]
    · unfold lookupConnRow
      rw [if_neg (fun hf : f.1 = e.1 =>
        hnd.1 (hf ▸ List.mem_map.mpr ⟨e, he', rfl⟩))]
      exact ih hnd.2 e he'

theorem mem_of_lookupConnRow :
    ∀ (tbl : ConnTable) (k : String × String) (v : ConnRow),
      lookupConnRow tbl k = some v → (k, v) ∈ tbl := by
  intro tbl
  induction tbl with
  | nil => intro k v h; simp [lookupConnRow] at h
  | cons e tbl ih =>
    intro k v h
    unfold lookupConnRow at h
    by_cases he : e.1 = k
    · rw [if_pos he] at h
      injection h with h'
      subst h'
      subst he
      exact List.mem_cons.mpr (Or.inl (by simp))
    · rw [if_neg he] at h
      exact List.mem_cons.mpr (Or.inr (ih k v h))

/-- Symmetry invariant on the connection table: every stored row has a
mirrored row with swapped key and identical confidence, type and reason. -/
def SymTbl (tbl : ConnTable) : Prop :=
  ∀ a b r, lookupConnRow tbl (a, b) = some r →
    ∃ r', lookupConnRow tbl (b, a) = some r'
      ∧ r'.confidence_score = r.confidence_score
      ∧ r'.connection_type = r.connection_type
      ∧ r'.match_reason = r.match_reason

theorem symTbl_storeConnStep (entities : Entities) (tbl : ConnTable) (c : Conn)
    (h : SymTbl tbl) : SymTbl (storeConnStep entities tbl c) := by
  intro a b r hr
  unfold storeConnStep at hr ⊢
  rw [lookupConnRow_upsert, lookupConnRow_upsert] at hr
  rw [lookupConnRow_upsert, lookupConnRow_upsert]
  by_cases h2 : (a, b) = (c.tgt, c.src)
  · rw [if_pos h2] at hr
    have hab : a = c.tgt ∧ b = c.src := by
      simpa [Prod.ext_iff] using h2
    by_cases h3 : (b, a) = (c.tgt, c.src)
    · rw [if_pos h3]
      exact ⟨_, rfl, by cases hr; rfl, by cases hr; rfl, by cases hr; rfl⟩
    · rw [if_neg h3, if_pos (by simp [Prod.ext_iff, hab.1, hab.2])]
      exact ⟨_, rfl, by cases hr; rfl, by cases hr; rfl, by cases hr; rfl⟩
  · rw [if_neg h2] at hr
    by_cases h1 : (a, b) = (c.src, c.tgt)
    · rw [if_pos h1] at hr
      have hab : a = c.src ∧ b = c.tgt := by
        simpa [Prod.ext_iff] using h1
      rw [if_pos (by simp [Prod.ext_iff, hab.1, hab.2])]
      exact ⟨_, rfl, by cases hr; rfl, by cases hr; rfl, by cases hr; rfl⟩
    · rw [if_neg h1] at hr
      have hba2 : (b, a) ≠ (c.tgt, c.src) := by
        intro hba
        exact h1 (by simpa [Prod.ext_iff, and_comm] using hba)
      have hba1 : (b, a) ≠ (c.src, c.tgt) := by
        intro hba
        exact h2 (by simpa [Prod.ext_iff, and_comm] using hba)
      rw [if_neg hba2, if_neg hba1]
      exact h a b r hr

theorem symTbl_foldl (entities : Entities) :
    ∀ (connections : List Conn) (tbl : ConnTable),
      SymTbl tbl → SymTbl (connections.foldl (storeConnStep entities) tbl) := by
  intro connections
  induction connections with
  | nil => intro tbl h; exact h
  | cons c connections ih =>
    intro tbl h
    exact ih _ (symTbl_storeConnStep entities tbl c h)

theorem nodup_foldl_store (entities : Entities) :
    ∀ (connections : List Conn) (tbl : ConnTable),
      (tbl.map Prod.fst).Nodup →
      ((connections.foldl (storeConnStep entities) tbl).map Prod.fst).Nodup := by
  intro connections
  induction connections with
  | nil => intro tbl h; exact h
  | cons c connections ih =>
    intro tbl h
    exact ih _ (upsertConn_nodup _ _ _ (upsertConn_nodup _ _ _ h))

theorem mem_insertByConf {a x : ConnOut} {l : List ConnOut} :
    a ∈ insertByConf x l ↔ a = x ∨ a ∈ l := by
  induction l with
  | nil => simp [insertByConf]
  | cons y l ih =>
    unfold insertByConf
    by_cases h : y.confidence < x.confidence
    · rw [if_pos h]; simp
    · rw [if_neg h]
      simp only [List.mem_cons, ih]
      tauto

theorem mem_sortByConfDesc {a : ConnOut} {l : List ConnOut} :
    a ∈ sortByConfDesc l ↔ a ∈ l := by
  have gen : ∀ (l acc : List ConnOut),
      a ∈ l.foldl (fun acc x => insertByConf x acc) acc ↔ a ∈ acc ∨ a ∈ l := by
    intro l
    induction l with
    | nil => simp
    | cons x l ih =>
      intro acc
      rw [List.foldl_cons, ih, mem_insertByConf]
      simp only [List.mem_cons]
      tauto
  unfold sortByConfDesc
  rw [gen]
  simp

/-- Membership characterization of the rows returned by
`get_entity_connections`. -/
theorem mem_get_entity_connections {db : DB} {A : String} {out : ConnOut} :
    out ∈ get_entity_connections db A
      ↔ ∃ e ∈ db.conns, e.1.1 = A ∧ connOutOf db e = out := by
  unfold get_entity_connections
  rw [mem_sortByConfDesc, List.mem_map]
  constructor
  · rintro ⟨e, he, rfl⟩
    have := List.mem_filter.mp he
    exact ⟨e, this.1, by simpa using this.2, rfl⟩
  · rintro ⟨e, he, hA, rfl⟩
    exact ⟨e, List.mem_filter.mpr ⟨he, by simpa using hA⟩, rfl⟩

/-- C3: if the stored connections of `A` contain a record for `B`, the
stored connections of `B` contain a record for `A` with identical
confidence, connection type and reason — `store_connections` persists each
discovered connection as two directed rows with swapped source/target. -/
theorem C3_symmetry (connections : List Conn) (entities : Entities) (A B : String)
    (out : ConnOut)
    (h : out ∈ get_entity_connections (store_connections ⟨[], []⟩ connections entities) A)
    (hB : out.target_id = B) :
    ∃ out' ∈ get_entity_connections (store_connections ⟨[], []⟩ connections entities) B,
      out'.target_id = A ∧ out'.confidence = out.confidence
      ∧ out'.connection_type = out.connection_type
      ∧ out'.match_reason = out.match_reason := by
  rcases mem_get_entity_connections.mp h with ⟨e, he, hA, hout⟩
  have hconns : (store_connections ⟨[], []⟩ connections entities).conns
      = connections.foldl (storeConnStep entities) [] := rfl
  have hnd := nodup_foldl_store entities connections [] (by simp)
  have hsym := symTbl_foldl entities connections []
    (by intro a b r hr; simp [lookupConnRow] at hr)
  have he' : e ∈ connections.foldl (storeConnStep entities) [] := hconns ▸ he
  have hkey : e.1 = (A, B) := by
    have h2 : e.1.2 = B := by rw [← hB, ← hout]; rfl
    exact Prod.ext_iff.mpr ⟨hA, h2⟩
  have hlk := lookupConnRow_of_mem _ hnd e he'
  rw [hkey] at hlk
  rcases hsym A B e.2 hlk with ⟨r', hlk', hconf, htype, hreason⟩
  have hmem' : ((B, A), r') ∈ (store_connections ⟨[], []⟩ connections entities).conns := by
    rw [hconns]; exact mem_of_lookupConnRow _ _ _ hlk'
  refine ⟨connOutOf (store_connections ⟨[], []⟩ connections entities) ((B, A), r'),
    mem_get_entity_connections.mpr ⟨((B, A), r'), hmem', rfl, rfl⟩, rfl, ?_, ?_, ?_⟩
  · show r'.confidence_score = out.confidence
    rw [← hout]; exact hconf
  · show r'.connection_type = out.connection_type
    rw [← hout]; exact htype
  · show r'.match_reason = out.match_reason
    rw [← hout]; exact hreason

/-- Witness for C3: a single stored connection `a — b`. -/
theorem C3_symmetry_witness :
    ∃ out' ∈ get_entity_connections
        (store_connections ⟨[], []⟩ [⟨"a", "b", "t:r", mkRat 9 10⟩] []) "b",
      out'.target_id = "a"
      ∧ out'.confidence = ConnOut.confidence
          ⟨"b", "", "t", mkRat 9 10, "t:r", "", "", ""⟩
      ∧ out'.connection_type = ConnOut.connection_type
          ⟨"b", "", "t", mkRat 9 10, "t:r", "", "", ""⟩
      ∧ out'.match_reason = ConnOut.match_reason
          ⟨"b", "", "t", mkRat 9 10, "t:r", "", "", ""⟩ :=
  C3_symmetry [⟨"a", "b", "t:r", mkRat 9 10⟩] [] "a" "b"
    ⟨"b", "", "t", mkRat 9 10, "t:r", "", "", ""⟩ (by decide) rfl

/-! ### C7 — reference-match precedence over similarity -/

/-- Generic preservation of a predicate by `List.foldl`. -/
theorem foldl_preserves {α β : Type} {P : β → Prop} {f : β → α → β}
    (hf : ∀ st a, P st → P (f st a)) :
    ∀ (l : List α) (st : β), P st → P (l.foldl f st) := by
  intro l
  induction l with
  | nil => intro st h; exact h
  | cons a l ih => intro st h; exact ih _ (hf st a h)

theorem lexLe_total : ∀ (as bs : List Char), lexLe as bs = true ∨ lexLe bs as = true := by
  intro as
  induction as with
  | nil => intro bs; exact Or.inl rfl
  | cons a as ih =>
    intro bs
    cases bs with
    | nil => exact Or.inr rfl
    | cons b bs =>
      unfold lexLe
      by_cases h1 : a.toNat < b.toNat
      · exact Or.inl (by rw [if_pos h1])
      · by_cases h2 : b.toNat < a.toNat
        · exact Or.inr (by rw [if_pos h2])
        · rw [if_neg h1, if_neg h2, if_neg h2, if_neg h1]
          exact ih bs

theorem lexLe_antisymm : ∀ (as bs : List Char),
    lexLe as bs = true → lexLe bs as = true → as = bs := by
  intro as
  induction as with
  | nil =>
    intro bs _ h2
    cases bs with
    | nil => rfl
    | cons b bs => simp [lexLe] at h2
  | cons a as ih =>
    intro bs h1 h2
    cases bs with
    | nil => simp [lexLe] at h1
    | cons b bs =>
      unfold lexLe at h1 h2
      by_cases hab : a.toNat < b.toNat
      · rw [if_neg (Nat.lt_asymm hab), if_pos hab] at h2
        exact absurd h2 (by simp)
      · by_cases hba : b.toNat < a.toNat
        · rw [if_neg hab, if_pos hba] at h1
          exact absurd h1 (by simp)
        · rw [if_neg hab, if_neg hba] at h1
          rw [if_neg hba, if_neg hab] at h2
          have heq : a = b :=
            Char.ext (UInt32.ext (Nat.le_antisymm (Nat.le_of_not_lt hba) (Nat.le_of_not_lt hab)))
          rw [heq, ih bs h1 h2]

theorem strLe_antisymm {a b : String} (h1 : strLe a b = true) (h2 : strLe b a = true) :
    a = b :=
  String.ext (lexLe_antisymm _ _ h1 h2)

/-- The unordered pair is independent of argument order. -/
theorem sortedPair_swap (a b : String) : sortedPair a b = sortedPair b a := by
  unfold sortedPair
  by_cases h1 : strLe a b = true
  · rw [if_pos h1]
    by_cases h2 : strLe b a = true
    · rw [if_pos h2, strLe_antisymm h1 h2]
    · rw [if_neg h2]
  · rw [if_neg h1]
    have h2 : strLe b a = true := (lexLe_total a.data b.data).resolve_left h1
    rw [if_pos h2]

/-- Invariant carried through the similarity and meeting passes: the pair
`p0` stays registered in `existing_pairs` and no produced connection covers
it. -/
def AvoidsPair (p0 : String × String) (st : List Conn × Pairs) : Prop :=
  p0 ∈ st.2 ∧ ∀ c ∈ st.1, sortedPair c.src c.tgt ≠ p0

theorem vecCandidateStep_avoids {p0 : String × String} (jid : String)
    (st : List Conn × Pairs) (cand : String × ℚ) (h : AvoidsPair p0 st) :
    AvoidsPair p0 (vecCandidateStep jid st cand) := by
  unfold vecCandidateStep
  split
  · exact h
  split
  · exact h
  split
  · exact h
  split
  · split
    · rename_i hnotin _ _
      refine ⟨List.mem_append_left _ h.1, fun c hc => ?_⟩
      rcases List.mem_append.mp hc with hc' | hc'
      · exact h.2 c hc'
      · have hceq : c = ⟨jid, cand.1, "vector_similarity:" ++ fmt3 cand.2,
            distToConfidence cand.2⟩ := by simpa using hc'
        subst hceq
        intro heq
        exact hnotin (heq ▸ h.1)
    · exact h
  · exact h

theorem meetCandidateStep_avoids {p0 : String × String} (mid incident_ref : String)
    (st : List Conn × Pairs) (cand : String × Entity) (h : AvoidsPair p0 st) :
    AvoidsPair p0 (meetCandidateStep mid incident_ref st cand) := by
  unfold meetCandidateStep
  split
  · exact h
  split
  · exact h
  split
  · rename_i hnotin _
    refine ⟨List.mem_append_left _ h.1, fun c hc => ?_⟩
    rcases List.mem_append.mp hc with hc' | hc'
    · exact h.2 c hc'
    · have hceq : c = ⟨mid, cand.1, "shared_incident:" ++ incident_ref, mkRat 9 10⟩ := by
        simpa using hc'
      subst hceq
      intro heq
      exact hnotin (heq ▸ h.1)
  · exact h

/-- The similarity pass never produces a connection for a pair already in
`existing_pairs`, and keeps the pair registered. -/
theorem find_vector_matches_avoids (entities : Entities)
    (vquery : String → List (String × ℚ)) (ep : Pairs) (p0 : String × String)
    (h : p0 ∈ ep) : AvoidsPair p0 (find_vector_matches entities vquery ep) := by
  unfold find_vector_matches
  refine foldl_preserves (fun st e hst => ?_) _ _ ⟨h, by simp⟩
  dsimp only
  split
  · exact hst
  · exact foldl_preserves (fun st cand hst => vecCandidateStep_avoids e.1 st cand hst) _ _ hst

/-- Same for the meeting pass. -/
theorem find_meeting_connections_avoids (entities : Entities) (ep : Pairs)
    (p0 : String × String) (h : p0 ∈ ep) :
    AvoidsPair p0 (find_meeting_connections entities ep) := by
  unfold find_meeting_connections
  refine foldl_preserves (fun st e hst => ?_) _ _ ⟨h, by simp⟩
  dsimp only
  exact foldl_preserves
    (fun st cand hst => meetCandidateStep_avoids e.1 e.2.metadata.incident_ref st cand hst)
    _ _ hst

/-- Storing connections that never cover the unordered pair of `(a, b)`
leaves the row at `(a, b)` unchanged. -/
theorem lookup_foldl_store_untouched (entities : Entities) :
    ∀ (l : List Conn) (tbl : ConnTable) (a b : String),
      (∀ c ∈ l, sortedPair c.src c.tgt ≠ sortedPair a b) →
      lookupConnRow (l.foldl (storeConnStep entities) tbl) (a, b)
        = lookupConnRow tbl (a, b) := by
  intro l
  induction l with
  | nil => intro tbl a b _; rfl
  | cons c l ih =>
    intro tbl a b hl
    rw [List.foldl_cons, ih _ a b (fun c' hc' => hl c' (by simp [hc']))]
    unfold storeConnStep
    rw [lookupConnRow_upsert, lookupConnRow_upsert]
    have hc := hl c (by simp)
    rw [if_neg, if_neg]
    · intro heq
      have : a = c.src ∧ b = c.tgt := by simpa [Prod.ext_iff] using heq
      exact hc (by rw [this.1, this.2])
    · intro heq
      have : a = c.tgt ∧ b = c.src := by simpa [Prod.ext_iff] using heq
      exact hc (by rw [this.1, this.2, sortedPair_swap])

/-- Entities sharing the extracted PR reference `101` while no canonical
`github_pr_101` entity exists: the reference pass connects nothing for
them. -/
def entitiesSharedPrNoCanonical : Entities :=
  [("jira_ENG-5", { document := "see PR 101", metadata := { source := "jira" } }),
   ("doc_2", { document := "also PR 101", metadata := { source := "docs" } })]

/-- The database built over `entitiesSharedPrNoCanonical` with a vector
oracle placing `doc_2` at distance 0.4 from the ticket's document. -/
def dbSharedPrNoCanonical : DB :=
  mainStore entitiesSharedPrNoCanonical (fun _ => [("doc_2", mkRat 2 5)])

/-- C7 (counterexample): two entities that both share the extracted PR
reference `101` and fall within the similarity threshold, but — because no
canonical `github_pr_101` entity exists — receive no reference-pass edge at
all; the persisted edge for the pair comes from the similarity pass, with
`connection_type = "vector_similarity"`, refuting the claim as stated. -/
theorem C7_counterexample :
    "101" ∈ (extract_references "see PR 101").pr_refs
    ∧ "101" ∈ (extract_references "also PR 101").pr_refs
    ∧ "github_pr_101" ∉ entitiesSharedPrNoCanonical.map Prod.fst
    ∧ find_regex_matches entitiesSharedPrNoCanonical = []
    ∧ mkRat 2 5 < VECTOR_SIMILARITY_THRESHOLD
    ∧ (∃ e ∈ get_entity_connections dbSharedPrNoCanonical "jira_ENG-5",
        e.target_id = "doc_2" ∧ e.connection_type = "vector_similarity")
    ∧ ¬(∃ e ∈ get_entity_connections dbSharedPrNoCanonical "jira_ENG-5",
        e.target_id = "doc_2" ∧ e.connection_type = "reference-match") := by
  decide

/-- C7 (amended): for every unordered pair actually connected by the
reference-match pass, the persisted edge comes from that pass, not the
similarity pass: the reference pass runs first, its pairs seed
`existing_pairs`, the similarity pass produces no connection for any such
pair, and the stored row equals the one written from the reference-pass
connections alone.  (Pairs that merely share an extracted reference without
receiving a reference-pass edge — a shared PR number with no canonical
`github_pr_…` entity, or a shared `ticket_id`, which the pass ignores — are
not covered and can be persisted by the similarity pass; see
the counterexample above.) -/
theorem C7_reference_precedence (entities : Entities)
    (vquery : String → List (String × ℚ)) (a b : String)
    (h : sortedPair a b ∈ regexPairs (find_regex_matches entities)) :
    (∀ c ∈ (find_vector_matches entities vquery
        (regexPairs (find_regex_matches entities))).1,
      sortedPair c.src c.tgt ≠ sortedPair a b)
    ∧ lookupConnRow (mainStore entities vquery).conns (a, b)
      = lookupConnRow
          (store_connections ⟨[], []⟩ (find_regex_matches entities) entities).conns
          (a, b) := by
  have hvec := find_vector_matches_avoids entities vquery
    (regexPairs (find_regex_matches entities)) (sortedPair a b) h
  have hmeet := find_meeting_connections_avoids entities
    (find_vector_matches entities vquery (regexPairs (find_regex_matches entities))).2
    (sortedPair a b) hvec.1
  refine ⟨hvec.2, ?_⟩
  have hms : (mainStore entities vquery).conns
      = ((find_regex_matches entities
          ++ (find_vector_matches entities vquery
              (regexPairs (find_regex_matches entities))).1
          ++ (find_meeting_connections entities
              (find_vector_matches entities vquery
                (regexPairs (find_regex_matches entities))).2).1).foldl
          (storeConnStep entities) []) := rfl
  have hrs : (store_connections ⟨[], []⟩ (find_regex_matches entities) entities).conns
      = (find_regex_matches entities).foldl (storeConnStep entities) [] := rfl
  rw [hms, hrs, List.append_assoc, List.foldl_append]
  exact lookup_foldl_store_untouched entities _ _ a b
    (fun c hc => by
      rcases List.mem_append.mp hc with hc' | hc'
      · exact hvec.2 c hc'
      · exact hmeet.2 c hc')

/-- Witness for C7: the scenario pair `jira_ENG-1 — slack_T1` with a vector
oracle that would also match it. -/
theorem C7_reference_precedence_witness :
    (∀ c ∈ (find_vector_matches entitiesScenario
        (fun _ => [("slack_T1", mkRat 2 5)])
        (regexPairs (find_regex_matches entitiesScenario))).1,
      sortedPair c.src c.tgt ≠ sortedPair "jira_ENG-1" "slack_T1")
    ∧ lookupConnRow (mainStore entitiesScenario
        (fun _ => [("slack_T1", mkRat 2 5)])).conns ("jira_ENG-1", "slack_T1")
      = lookupConnRow
          (store_connections ⟨[], []⟩ (find_regex_matches entitiesScenario)
            entitiesScenario).conns
          ("jira_ENG-1", "slack_T1") :=
  C7_reference_precedence entitiesScenario (fun _ => [("slack_T1", mkRat 2 5)])
    "jira_ENG-1" "slack_T1" (by decide)

/-! ### C9 — termination of the graph traversal -/

theorem levelStep_depth (db : DB) (maxDepth : Nat) (st : BCGState) :
    (levelStep db maxDepth st).depth = st.depth + 1 := rfl

theorem bcgRun_succ (db : DB) (maxDepth fuel : Nat) (st : BCGState) :
    bcgRun db maxDepth (fuel + 1) st
      = if bcgDone maxDepth st = true then st
        else bcgRun db maxDepth fuel (levelStep db maxDepth st) := rfl

/-- Once the loop condition fails, further fuel changes nothing. -/
theorem bcgRun_of_done (db : DB) (maxDepth : Nat) :
    ∀ (fuel : Nat) (st : BCGState), bcgDone maxDepth st = true →
      bcgRun db maxDepth fuel st = st := by
  intro fuel
  induction fuel with
  | zero => intro st _; rfl
  | succ fuel _ =>
    intro st h
    unfold bcgRun
    rw [if_pos h]

/-- The loop condition fails after at most `maxDepth + 1 - depth` more
iterations, because every iteration increments `current_depth`. -/
theorem bcgRun_done (db : DB) (maxDepth : Nat) :
    ∀ (fuel : Nat) (st : BCGState), maxDepth < st.depth + fuel →
      bcgDone maxDepth (bcgRun db maxDepth fuel st) = true := by
  intro fuel
  induction fuel with
  | zero =>
    intro st h
    unfold bcgRun bcgDone
    simp only [Nat.add_zero] at h
    simp [h]
  | succ fuel ih =>
    intro st h
    unfold bcgRun
    by_cases hd : bcgDone maxDepth st = true
    · rw [if_pos hd]; exact hd
    · rw [if_neg hd]
      exact ih _ (by rw [levelStep_depth]; omega)

/-- Fuel beyond a point where the loop condition fails is irrelevant: the
iteration has stabilized. -/
theorem bcgRun_extra (db : DB) (maxDepth : Nat) :
    ∀ (fuel extra : Nat) (st : BCGState),
      bcgDone maxDepth (bcgRun db maxDepth fuel st) = true →
      bcgRun db maxDepth (fuel + extra) st = bcgRun db maxDepth fuel st := by
  intro fuel
  induction fuel with
  | zero =>
    intro extra st h
    rw [Nat.zero_add]
    exact bcgRun_of_done db maxDepth extra st h
  | succ fuel ih =>
    intro extra st h
    by_cases hd : bcgDone maxDepth st = true
    · rw [bcgRun_of_done db maxDepth _ st hd, bcgRun_of_done db maxDepth _ st hd]
    · have e1 : bcgRun db maxDepth (fuel + 1) st
          = bcgRun db maxDepth fuel (levelStep db maxDepth st) := by
        rw [bcgRun_succ, if_neg hd]
      have e2 : bcgRun db maxDepth (fuel + 1 + extra) st
          = bcgRun db maxDepth (fuel + extra) (levelStep db maxDepth st) := by
        rw [show fuel + 1 + extra = (fuel + extra) + 1 by omega, bcgRun_succ, if_neg hd]
      rw [e1, e2]
      rw [e1] at h
      exact ih extra _ h

/-- C9: `build_connection_graph` terminates on every finite store, seed
list and `max_depth`, cycles included: the BFS loop reaches its exit
condition within `max_depth + 1` level iterations (each iteration
increments `current_depth`, which `max_depth` bounds), and running the loop
with any surplus fuel returns the identical state. -/
theorem C9_termination (db : DB) (seeds : List String) (max_depth extra : Nat) :
    bcgDone max_depth (bcgRun db max_depth (max_depth + 1) (bcgInit seeds)) = true
    ∧ bcgRun db max_depth (max_depth + 1 + extra) (bcgInit seeds)
      = bcgRun db max_depth (max_depth + 1) (bcgInit seeds) := by
  have hdone := bcgRun_done db max_depth (max_depth + 1) (bcgInit seeds)
    (by show max_depth < 0 + (max_depth + 1); omega)
  exact ⟨hdone, bcgRun_extra db max_depth (max_depth + 1) extra _ hdone⟩

/-! ### C2 — depth bound of the graph traversal -/

theorem reachN_mono (db : DB) (seeds : List String) (d : Nat) :
    ∀ x ∈ reachN db seeds d, x ∈ reachN db seeds (d + 1) := by
  intro x hx
  unfold reachN
  exact List.mem_append_left _ hx

theorem reachN_le_mono (db : DB) (seeds : List String) {d d' : Nat} (h : d ≤ d') :
    ∀ x ∈ reachN db seeds d, x ∈ reachN db seeds d' := by
  induction d' with
  | zero =>
    intro x hx
    rw [Nat.le_zero.mp h] at hx
    exact hx
  | succ d' ih =>
    intro x hx
    rcases Nat.lt_or_ge d (d' + 1) with h' | h'
    · exact reachN_mono db seeds d' x (ih (by omega) x hx)
    · rw [Nat.le_antisymm h h'] at hx
      exact hx

theorem reachN_closure (db : DB) (seeds : List String) (d : Nat) {x y : String}
    (hx : x ∈ reachN db seeds d) (hy : y ∈ neighborIds db x) :
    y ∈ reachN db seeds (d + 1) := by
  unfold reachN
  exact List.mem_append_right _ (List.mem_flatMap.mpr ⟨x, hx, hy⟩)

/-- Nodes added by `add_node` are the old ones or carry the given id. -/
theorem addNode_mem {db : DB} {nodes : List (String × GraphNode)} {eid : String}
    {p : String × GraphNode} (hp : p ∈ addNode db nodes eid) :
    p ∈ nodes ∨ p.2.id = eid := by
  unfold addNode at hp
  split at hp
  · exact Or.inl hp
  · split at hp
    · rcases List.mem_append.mp hp with h | h
      · exact Or.inl h
      · right
        simp only [List.mem_singleton] at h
        rw [h]
    · exact Or.inl hp

/-- Invariant of the per-level accumulator while processing the frontier at
depth `k`: all recorded node ids and all queued next-level entities lie
within `k + 1` hops of the seeds. -/
def AccInv (db : DB) (seeds : List String) (k : Nat) (acc : LevelAcc) : Prop :=
  (∀ p ∈ acc.nodes, p.2.id ∈ reachN db seeds (k + 1))
  ∧ (∀ e ∈ acc.nextLevel, e ∈ reachN db seeds (k + 1))

/-- Generic fold preservation, with the fold's elements constrained to a
list. -/
theorem foldl_preserves_mem {α β : Type} {P : β → Prop} {f : β → α → β} :
    ∀ (l : List α), (∀ st a, a ∈ l → P st → P (f st a)) →
      ∀ st, P st → P (l.foldl f st) := by
  intro l
  induction l with
  | nil => intro _ st h; exact h
  | cons a l ih =>
    intro hf st h
    exact ih (fun st a' ha' h' => hf st a' (by simp [ha']) h') _ (hf st a (by simp) h)

theorem connLoop_inv {db : DB} {seeds : List String} (maxDepth k : Nat)
    (eid : String) (heid : eid ∈ reachN db seeds k) :
    ∀ (conns : List ConnOut), (∀ c ∈ conns, c ∈ get_entity_connections db eid) →
      ∀ (acc : LevelAcc), AccInv db seeds k acc →
        AccInv db seeds k (connLoop db maxDepth k eid acc conns) := by
  intro conns hconns acc hacc
  unfold connLoop
  refine foldl_preserves_mem conns (fun acc c hc hacc => ?_) acc hacc
  have htgt : c.target_id ∈ neighborIds db eid := by
    unfold neighborIds
    exact List.mem_map.mpr ⟨c, hconns c hc, rfl⟩
  constructor
  · intro p hp
    rcases addNode_mem hp with h' | h'
    · exact hacc.1 p h'
    · rw [h']
      exact reachN_closure db seeds k heid htgt
  · intro e he
    dsimp only at he
    split at he
    · rcases List.mem_append.mp he with h' | h'
      · exact hacc.2 e h'
      · simp only [List.mem_singleton] at h'
        rw [h']
        exact reachN_closure db seeds k heid htgt
    · exact hacc.2 e he

theorem processEntity_inv {db : DB} {seeds : List String} (maxDepth k : Nat)
    (eid : String) (heid : eid ∈ reachN db seeds k)
    (acc : LevelAcc) (hacc : AccInv db seeds k acc) :
    AccInv db seeds k (processEntity db maxDepth k acc eid) := by
  unfold processEntity
  split
  · exact hacc
  · refine connLoop_inv maxDepth k eid heid _ (fun c hc => hc) _ ?_
    constructor
    · intro p hp
      rcases addNode_mem hp with h' | h'
      · exact hacc.1 p h'
      · rw [h']
        exact reachN_mono db seeds k eid heid
    · exact hacc.2

/-- Loop invariant of the `while` loop: frontier entities and recorded node
ids lie within `depth` hops of the seeds. -/
def BCGInv (db : DB) (seeds : List String) (st : BCGState) : Prop :=
  (∀ e ∈ st.toProcess, e ∈ reachN db seeds st.depth)
  ∧ (∀ p ∈ st.nodes, p.2.id ∈ reachN db seeds st.depth)

theorem levelStep_inv {db : DB} {seeds : List String} (maxDepth : Nat)
    (st : BCGState) (h : BCGInv db seeds st) :
    BCGInv db seeds (levelStep db maxDepth st) := by
  unfold levelStep
  have hacc : AccInv db seeds st.depth
      ⟨st.nodes, st.edges, st.seenEdges, st.processed, []⟩ := by
    constructor
    · intro p hp
      exact reachN_mono db seeds st.depth _ (h.2 p hp)
    · intro e he
      simp at he
  have hfold := foldl_preserves_mem (P := AccInv db seeds st.depth)
    st.toProcess
    (fun acc eid heid hacc => processEntity_inv maxDepth st.depth eid (h.1 eid heid) acc hacc)
    _ hacc
  exact ⟨fun e he => hfold.2 e he, fun p hp => hfold.1 p hp⟩

theorem bcgRun_inv {db : DB} {seeds : List String} (maxDepth : Nat) :
    ∀ (fuel : Nat) (st : BCGState), BCGInv db seeds st →
      BCGInv db seeds (bcgRun db maxDepth fuel st) := by
  intro fuel
  induction fuel with
  | zero => intro st h; exact h
  | succ fuel ih =>
    intro st h
    unfold bcgRun
    split
    · exact h
    · exact ih _ (levelStep_inv maxDepth st h)

theorem bcgRun_depth_le (db : DB) (maxDepth : Nat) :
    ∀ (fuel : Nat) (st : BCGState), st.depth ≤ maxDepth + 1 →
      (bcgRun db maxDepth fuel st).depth ≤ maxDepth + 1 := by
  intro fuel
  induction fuel with
  | zero => intro st h; exact h
  | succ fuel ih =>
    intro st h
    unfold bcgRun
    by_cases hd : bcgDone maxDepth st = true
    · rw [if_pos hd]; exact h
    · rw [if_neg hd]
      have hdep : st.depth ≤ maxDepth := by
        unfold bcgDone at hd
        rcases Bool.or_eq_false_iff.mp (Bool.eq_false_iff.mpr hd) with ⟨_, h2⟩
        simpa using h2
      exact ih _ (by rw [levelStep_depth]; omega)

/-- C2 (amended): every node returned by `build_connection_graph` lies
within `max_depth + 1` hops of the seed set — one more hop than the claim's
`max_depth`, because the neighbors of a frontier entity are added as nodes
(and edges) even when the depth limit forbids queueing them. -/
theorem C2_amended_depth_bound (db : DB) (seeds : List String) (max_depth : Nat)
    (n : GraphNode) (h : n ∈ (build_connection_graph db seeds max_depth).1) :
    n.id ∈ reachN db seeds (max_depth + 1) := by
  unfold build_connection_graph at h
  dsimp only at h
  rcases List.mem_map.mp h with ⟨p, hp, rfl⟩
  have hinv0 : BCGInv db seeds (bcgInit seeds) :=
    ⟨fun e he => he, by intro p hp; simp [bcgInit] at hp⟩
  have hinv := bcgRun_inv max_depth (max_depth + 1) (bcgInit seeds) hinv0
  have hd := bcgRun_depth_le db max_depth (max_depth + 1) (bcgInit seeds)
    (by show 0 ≤ max_depth + 1; omega)
  exact reachN_le_mono db seeds hd _ (hinv.2 p hp)

/-- The stored graph of the depth-0 scenario: seed `A` with three stored
neighbors `B1`, `B2`, `B3` (all with cached metadata). -/
def dbThreeNeighbors : DB :=
  store_connections ⟨[], []⟩
    [⟨"A", "B1", "shared_jira:X-1", mkRat 9 10⟩,
     ⟨"A", "B2", "shared_jira:X-2", mkRat 9 10⟩,
     ⟨"A", "B3", "shared_jira:X-3", mkRat 9 10⟩]
    [("A", {}), ("B1", {}), ("B2", {}), ("B3", {})]

/-- C2 (counterexample): with a single seed `A` having 3 stored neighbors
and `max_depth = 0`, the result has 4 nodes and 3 edges — not the claimed
1 node and 0 edges: the frontier entity's neighbors are added as nodes and
edges even at the depth limit. -/
theorem C2_counterexample :
    (build_connection_graph dbThreeNeighbors ["A"] 0).1.length = 4
    ∧ (build_connection_graph dbThreeNeighbors ["A"] 0).2.length = 3
    ∧ ¬((build_connection_graph dbThreeNeighbors ["A"] 0).1.length = 1
        ∧ (build_connection_graph dbThreeNeighbors ["A"] 0).2.length = 0) := by
  refine ⟨by decide, by decide, ?_⟩
  intro h
  have := h.1
  rw [show (build_connection_graph dbThreeNeighbors ["A"] 0).1.length = 4 by decide] at this
  exact absurd this (by decide)

/-- Witness for C2 (amended): the seed node `A` of the scenario is within
one hop of the seeds. -/
theorem C2_amended_depth_bound_witness :
    (GraphNode.id ⟨"A", "", "", "", ""⟩) ∈ reachN dbThreeNeighbors ["A"] (0 + 1) :=
  C2_amended_depth_bound dbThreeNeighbors ["A"] 0 ⟨"A", "", "", "", ""⟩ (by decide)

/-! ### C8 — graceful empty search -/

/-- C8: when the summary vector search returns zero summaries, the graph
search returns an empty result — empty root summary list, zero nodes, zero
edges — and (being a total function of the inputs in this model) raises
nothing. -/
theorem C8_empty_search (db : DB) (searchSummaries : String → Nat → List Summary)
    (query : String) (top_k graph_depth : Nat)
    (h : searchSummaries query top_k = []) :
    search_with_connections db searchSummaries query top_k graph_depth
      = { query := query, root_summaries := [], nodes := [], edges := [],
          node_count := 0, edge_count := 0 } := by
  unfold search_with_connections
  rw [h]
  rfl

/-- Witness for C8 at the spec's scenario parameters. -/
theorem C8_empty_search_witness :
    search_with_connections ⟨[], []⟩ (fun _ _ => []) "topic with no matches" 3 1
      = { query := "topic with no matches", root_summaries := [], nodes := [],
          edges := [], node_count := 0, edge_count := 0 } :=
  C8_empty_search ⟨[], []⟩ (fun _ _ => []) "topic with no matches" 3 1 rfl

/-! ### C10 — `get_entity_by_id` returns the truncated preview as content -/

theorem find?_upsertMeta :
    ∀ (tbl : MetaTable) (k : String) (v : MetaRow) (k' : String),
      (upsertMeta tbl k v).find? (fun e => e.1 = k')
        = if k' = k then some (k, v) else tbl.find? (fun e => e.1 = k') := by
  intro tbl k v
  induction tbl with
  | nil =>
    intro k'
    by_cases h : k' = k
    · subst h; simp [upsertMeta, List.find?]
    · simp [upsertMeta, List.find?, h, Ne.symm h]
  | cons e tbl ih =>
    intro k'
    unfold upsertMeta
    by_cases he : e.1 = k
    · rw [if_pos he]
      by_cases h : k' = k
      · subst h; simp [List.find?]
      · rw [if_neg h]
        have he1 : ¬ (k = k') := fun hh => h hh.symm
        have he2 : ¬ (e.1 = k') := fun hh => h (hh.symm.trans he)
        simp [List.find?, he1, he2]
    · rw [if_neg he]
      by_cases h2 : e.1 = k'
      · have h3 : ¬ (k' = k) := fun hh => he (h2.trans hh)
        simp [List.find?, h2, h3]
      · simp [List.find?, h2, ih k']

theorem find?_foldl_meta_untouched :
    ∀ (l : Entities) (tbl : MetaTable) (k : String), k ∉ l.map Prod.fst →
      (l.foldl (fun t e => upsertMeta t e.1 (metaRowOf e.2)) tbl).find?
          (fun e => e.1 = k)
        = tbl.find? (fun e => e.1 = k) := by
  intro l
  induction l with
  | nil => intro tbl k _; rfl
  | cons e l ih =>
    intro tbl k hk
    simp only [List.map_cons, List.mem_cons] at hk
    rw [List.foldl_cons, ih _ k (fun h => hk (Or.inr h)), find?_upsertMeta,
      if_neg (fun h => hk (Or.inl h))]

/-- After `store_connections` caches metadata, looking up an entity of a
uniquely keyed entity dict returns exactly its cached row. -/
theorem meta_lookup_of_mem (entities : Entities)
    (h1 : (entities.map Prod.fst).Nodup) (eid : String) (ent : Entity)
    (h2 : (eid, ent) ∈ entities) :
    (entities.foldl (fun t e => upsertMeta t e.1 (metaRowOf e.2)) []).find?
        (fun e => e.1 = eid)
      = some (eid, metaRowOf ent) := by
  rcases List.append_of_mem h2 with ⟨l1, l2, rfl⟩
  rw [List.foldl_append, List.foldl_cons]
  have hnodup2 : (eid :: l2.map Prod.fst).Nodup := by
    have := (List.nodup_append.mp (by simpa using h1)).2.1
    simpa using this
  have hnotin : eid ∉ l2.map Prod.fst := (List.nodup_cons.mp hnodup2).1
  rw [find?_foldl_meta_untouched _ _ _ hnotin, find?_upsertMeta, if_pos rfl]

/-- C10: `get_entity_by_id` returns as `content` the stored
`content_preview`, i.e. the first at-most-500 characters of the entity's
document; for documents longer than 500 characters the returned content is
the truncated preview, not the full text. -/
theorem C10_content_preview (entities : Entities) (connections : List Conn)
    (eid : String) (ent : Entity)
    (h1 : (entities.map Prod.fst).Nodup) (h2 : (eid, ent) ∈ entities) :
    ∃ d, get_entity_by_id (store_connections ⟨[], []⟩ connections entities) eid = some d
      ∧ d.content = pyTake 500 ent.document
      ∧ (500 < ent.document.data.length → d.content ≠ ent.document) := by
  have hmeta : (store_connections ⟨[], []⟩ connections entities).meta
      = entities.foldl (fun t e => upsertMeta t e.1 (metaRowOf e.2)) [] := rfl
  have hfind := meta_lookup_of_mem entities h1 eid ent h2
  have hgm : get_entity_metadata (store_connections ⟨[], []⟩ connections entities) eid
      = some
        { entity_id := eid
          source := (metaRowOf ent).source
          type := (metaRowOf ent).entity_type
          title := (metaRowOf ent).title
          preview := if (metaRowOf ent).content_preview = "" then ""
            else pyTake 200 (metaRowOf ent).content_preview
          content := (metaRowOf ent).content_preview
          timestamp := (metaRowOf ent).timestamp
          incident_ref := (metaRowOf ent).incident_ref
          jira_ref := (metaRowOf ent).jira_ref
          pr_ref := (metaRowOf ent).pr_ref } := by
    unfold get_entity_metadata
    rw [hmeta, hfind]
  obtain ⟨d, hd1, hd2⟩ :
      ∃ d, get_entity_by_id (store_connections ⟨[], []⟩ connections entities) eid = some d
        ∧ d.content = (metaRowOf ent).content_preview := by
    unfold get_entity_by_id
    rw [hgm]
    exact ⟨_, rfl, rfl⟩
  refine ⟨d, hd1, hd2, ?_⟩
  intro hlen heq
  rw [hd2] at heq
  have hdata := congrArg String.data heq
  have htake : ent.document.data.take 500 = ent.document.data := hdata
  have hlen' := congrArg List.length htake
  rw [List.length_take] at hlen'
  omega

/-- Witness for C10 on a one-entity store. -/
theorem C10_content_preview_witness :
    ∃ d, get_entity_by_id
        (store_connections ⟨[], []⟩ [] [("doc_1", { document := "hello world" })])
        "doc_1" = some d
      ∧ d.content = pyTake 500 (Entity.document { document := "hello world" })
      ∧ (500 < (Entity.document { document := "hello world" }).data.length →
          d.content ≠ Entity.document { document := "hello world" }) :=
  C10_content_preview [("doc_1", { document := "hello world" })] [] "doc_1"
    { document := "hello world" } (by decide) (by decide)

end Busfactor
